import Mathlib

/-!
Shallow embedding of the CHIP-8 emulator core
(`src/emulator/instruction.rs`, `src/emulator/emulator.rs`,
`src/util/bit_splitter.rs`).

Machine integers are modelled as `Nat` with explicit `% 2^w` where the Rust
code performs wrapping arithmetic (`overflowing_add`, `u8`/`u16` operations),
and array indexing that would panic in Rust (out-of-bounds slice or index) is
modelled by `Option`: a `none` result stands for a Rust panic.
-/

namespace Chip8Emu

/-- The CHIP-8 instruction set, one constructor per opcode, mirroring the
`Instruction` enum of `src/emulator/instruction.rs`.  Register indices,
8-bit constants and 12-bit addresses are carried as `Nat`. -/
inductive Instruction where
  | ClearScreen                       -- 00E0
  | Return                            -- 00EE
  | Goto (addr : Nat)                 -- 1NNN
  | Call (addr : Nat)                 -- 2NNN
  | IfRegEqConst (x n : Nat)          -- 3XNN
  | IfRegNeqConst (x n : Nat)         -- 4XNN
  | IfRegEqReg (x y : Nat)            -- 5XY0
  | SetRegToConst (x n : Nat)         -- 6XNN
  | IncRegByConst (x n : Nat)         -- 7XNN
  | SetRegToReg (x y : Nat)           -- 8XY0
  | BitwiseOr (x y : Nat)             -- 8XY1
  | BitwiseAnd (x y : Nat)            -- 8XY2
  | BitwiseXor (x y : Nat)            -- 8XY3
  | IncRegByReg (x y : Nat)           -- 8XY4
  | DecRegByReg (x y : Nat)           -- 8XY5
  | BitshiftRight (x : Nat)           -- 8XY6
  | SetVxVyMinusVx (x y : Nat)        -- 8XY7
  | BitshiftLeft (x : Nat)            -- 8XYE
  | IfRegNeqReg (x y : Nat)           -- 9XY0
  | SetI (addr : Nat)                 -- ANNN
  | SetPcToV0PlusAddr (addr : Nat)    -- BNNN
  | SetVxRand (x n : Nat)             -- CXNN
  | Draw (x y n : Nat)                -- DXYN
  | IfKeyEqVx (x : Nat)               -- EX9E
  | IfKeyNeqVx (x : Nat)              -- EXA1
  | SetRegToDelayTimer (x : Nat)      -- FX07
  | SetRegToGetKey (x : Nat)          -- FX0A
  | SetDelayTimerToReg (x : Nat)      -- FX15
  | SetSoundTimerToReg (x : Nat)      -- FX18
  | AddRegToI (x : Nat)               -- FX1E
  | SetIToSpriteAddrVx (x : Nat)      -- FX29
  | SetIToBcdOfReg (x : Nat)          -- FX33
  | RegDump (x : Nat)                 -- FX55
  | RegLoad (x : Nat)                 -- FX65
deriving DecidableEq, Repr

/-- `BitSplitter::as_u16`: recombine the two instruction bytes. -/
def as_u16 (left right : Nat) : Nat := (left <<< 8) ||| right

/-- `BitSplitter::as_four_u8`: the four nibbles of the word, MSB first. -/
def as_four_u8 (left right : Nat) : Nat × Nat × Nat × Nat :=
  ((left >>> 4) &&& 0xF, left &&& 0xF, (right >>> 4) &&& 0xF, right &&& 0xF)

/-- `BitSplitter::last_8_bits`: the low byte. -/
def last_8_bits (_left right : Nat) : Nat := right

/-- `BitSplitter::last_12_bits`: the address field. -/
def last_12_bits (left right : Nat) : Nat := as_u16 left right &&& 0x0FFF

/-- `Instruction::from_two_u8`: the decoder, dispatching on the four-nibble
tuple `as_four_u8` with the source's patterns in the source's order (written
as an ordered condition chain, which is what an ordered `match` on disjoint
literal patterns denotes).  In the patterns below `x` stands for the second
nibble `b`, `y` for the third nibble `c`, `n` for the fourth nibble `d`.
The source panics on an unrecognized pattern (`panic!("Unknown opcode!")`),
modelled as `none`. -/
def from_two_u8 (left right : Nat) : Option Instruction :=
  let a := (left >>> 4) &&& 0xF
  let b := left &&& 0xF
  let c := (right >>> 4) &&& 0xF
  let d := right &&& 0xF
  if a = 0 ∧ b = 0 ∧ c = 0xE ∧ d = 0 then some .ClearScreen
  else if a = 0 ∧ b = 0 ∧ c = 0xE ∧ d = 0xE then some .Return
  else if a = 1 then some (.Goto (last_12_bits left right))
  else if a = 2 then some (.Call (last_12_bits left right))
  else if a = 3 then some (.IfRegEqConst b (last_8_bits left right))
  else if a = 4 then some (.IfRegNeqConst b (last_8_bits left right))
  else if a = 5 ∧ d = 0 then some (.IfRegEqReg b c)
  else if a = 6 then some (.SetRegToConst b (last_8_bits left right))
  else if a = 7 then some (.IncRegByConst b (last_8_bits left right))
  else if a = 8 ∧ d = 0 then some (.SetRegToReg b c)
  else if a = 8 ∧ d = 1 then some (.BitwiseOr b c)
  else if a = 8 ∧ d = 2 then some (.BitwiseAnd b c)
  else if a = 8 ∧ d = 3 then some (.BitwiseXor b c)
  else if a = 8 ∧ d = 4 then some (.IncRegByReg b c)
  else if a = 8 ∧ d = 5 then some (.DecRegByReg b c)
  else if a = 8 ∧ d = 6 then some (.BitshiftRight b)
  else if a = 8 ∧ d = 7 then some (.SetVxVyMinusVx b c)
  else if a = 8 ∧ d = 0xE then some (.BitshiftLeft b)
  else if a = 9 ∧ d = 0 then some (.IfRegNeqReg b c)
  else if a = 0xA then some (.SetI (last_12_bits left right))
  else if a = 0xB then some (.SetPcToV0PlusAddr (last_12_bits left right))
  else if a = 0xC then some (.SetVxRand b (last_8_bits left right))
  else if a = 0xD then some (.Draw b c d)
  else if a = 0xE ∧ c = 9 ∧ d = 0xE then some (.IfKeyEqVx b)
  else if a = 0xE ∧ c = 0xA ∧ d = 1 then some (.IfKeyNeqVx b)
  else if a = 0xF ∧ c = 0 ∧ d = 7 then some (.SetRegToDelayTimer b)
  else if a = 0xF ∧ c = 0 ∧ d = 0xA then some (.SetRegToGetKey b)
  else if a = 0xF ∧ c = 1 ∧ d = 5 then some (.SetDelayTimerToReg b)
  else if a = 0xF ∧ c = 1 ∧ d = 8 then some (.SetSoundTimerToReg b)
  else if a = 0xF ∧ c = 1 ∧ d = 0xE then some (.AddRegToI b)
  else if a = 0xF ∧ c = 2 ∧ d = 9 then some (.SetIToSpriteAddrVx b)
  else if a = 0xF ∧ c = 3 ∧ d = 3 then some (.SetIToBcdOfReg b)
  else if a = 0xF ∧ c = 5 ∧ d = 5 then some (.RegDump b)
  else if a = 0xF ∧ c = 6 ∧ d = 5 then some (.RegLoad b)
  else none

/-- `Instruction::from_u16`. -/
def from_u16 (value : Nat) : Option Instruction :=
  from_two_u8 ((value &&& 0xFF00) >>> 8) (value &&& 0x00FF)

/-- The screen owned by the output device (`DummyOutput`): a map from
coordinates to a pixel state, absent cells reading as `0`. -/
def Screen : Type := Nat → Nat → Nat

/-- The I/O environment the engine is generic over: the non-blocking key
(`EmulatorInput::get_key`), the blocking key (`get_key_blocking`) and the
byte produced by `rand::random::<u8>()`. -/
structure Env where
  key : Option Nat
  blocking_key : Nat
  rand : Nat

/-- Machine state, mirroring the fields of `Emulator` (with the
`DummyOutput` screen attached). -/
structure Chip8 where
  memory : Nat → Nat
  registers : Nat → Nat
  delay_timer : Nat
  sound_timer : Nat
  i : Nat
  program_counter : Nat
  stack_pointer : Nat
  stack : Nat → Nat
  screen : Screen

/-- The built-in font table (80 bytes loaded at address 0). -/
def FONT : List Nat :=
  [0xF0, 0x90, 0x90, 0x90, 0xF0,
   0x20, 0x60, 0x20, 0x20, 0x70,
   0xF0, 0x10, 0xF0, 0x80, 0xF0,
   0xF0, 0x10, 0xF0, 0x10, 0xF0,
   0x90, 0x90, 0xF0, 0x10, 0x10,
   0xF0, 0x80, 0xF0, 0x10, 0xF0,
   0xF0, 0x80, 0xF0, 0x90, 0xF0,
   0xF0, 0x10, 0x20, 0x40, 0x40,
   0xF0, 0x90, 0xF0, 0x90, 0xF0,
   0xF0, 0x90, 0xF0, 0x10, 0xF0,
   0xF0, 0x90, 0xF0, 0x90, 0x90,
   0xE0, 0x90, 0xE0, 0x90, 0xE0,
   0xF0, 0x80, 0x80, 0x80, 0xF0,
   0xE0, 0x90, 0x90, 0x90, 0xE0,
   0xF0, 0x80, 0xF0, 0x80, 0xF0,
   0xF0, 0x80, 0xF0, 0x80, 0x80]

/-- `Emulator::new` (with dummy I/O): font at `0..80`, all else zeroed,
PC at `0x200`. -/
def initState : Chip8 where
  memory := fun a => if a < 80 then FONT.getD a 0 else 0
  registers := fun _ => 0
  delay_timer := 0
  sound_timer := 0
  i := 0
  program_counter := 0x200
  stack_pointer := 0
  stack := fun _ => 0
  screen := fun _ _ => 0

/-- `Emulator::load`: `len = min(program.len(), memory.len() - pc)`, then
`memory[pc..pc+len].copy_from_slice(program)`.  `copy_from_slice` panics
when the source length differs from the destination length, and slicing
panics when `pc + len` exceeds the memory size; both are `none`. -/
def load (program : List Nat) (s : Chip8) : Option Chip8 :=
  let pc := s.program_counter
  let len := min program.length (4096 - pc)
  if pc + len ≤ 4096 ∧ program.length = len then
    some { s with memory := fun a =>
      if pc ≤ a ∧ a < pc + len then program.getD (a - pc) 0 else s.memory a }
  else none

/-- Read a register; Rust `self.registers[x]` panics for `x ≥ 16`. -/
def getReg (s : Chip8) (x : Nat) : Option Nat :=
  if x < 16 then some (s.registers x) else none

/-- Pointwise function update used for register/stack/memory writes. -/
def updf (f : Nat → Nat) (x v : Nat) : Nat → Nat :=
  fun j => if j = x then v else f j

/-- Write a register; Rust `self.registers[x] = v` panics for `x ≥ 16`. -/
def setReg (s : Chip8) (x v : Nat) : Option Chip8 :=
  if x < 16 then some { s with registers := updf s.registers x v } else none

/-- The start of every `execute_single` call: decrement each timer if
positive, then `program_counter += 2` (`u16` wrapping). -/
def tick (s : Chip8) : Chip8 :=
  { s with
    delay_timer := if 0 < s.delay_timer then s.delay_timer - 1 else s.delay_timer
    sound_timer := if 0 < s.sound_timer then s.sound_timer - 1 else s.sound_timer
    program_counter := (s.program_counter + 2) % 65536 }

/-- The `PC += 2` of a taken skip. -/
def skip2 (s : Chip8) : Chip8 :=
  { s with program_counter := (s.program_counter + 2) % 65536 }

/-- Write one screen cell (`output.set`). -/
def setPixel (sc : Screen) (a b v : Nat) : Screen :=
  fun p q => if p = a ∧ q = b then v else sc p q

/-- The body of the inner `Draw` loop for one bit `w` of a sprite row:
XOR the bit into the cell and update the collision accumulator. -/
def drawCell (row xc y : Nat) (acc : Screen × Nat) (w : Nat) : Screen × Nat :=
  let newPixel := (row >>> (7 - w)) &&& 1
  let oldPixel := acc.1 (xc + w) y
  let xoredPixel := oldPixel ^^^ newPixel
  (setPixel acc.1 (xc + w) y xoredPixel,
   if oldPixel = 1 ∧ xoredPixel = 0 then 1 else acc.2)

/-- One sprite row: bits `w = 0..8`, MSB first. -/
def drawRow (row xc y : Nat) (acc : Screen × Nat) : Screen × Nat :=
  (List.range 8).foldl (drawCell row xc y) acc

/-- The full `Draw` blit: rows `h = 0..n` read from `memory[addr + h]`,
returning the final screen and the collision flag (`any_collisions`). -/
def drawSprite (mem : Nat → Nat) (addr xc yc n : Nat) (sc : Screen) : Screen × Nat :=
  (List.range n).foldl (fun acc h => drawRow (mem (addr + h)) xc (yc + h) acc) (sc, 0)

/-- `Emulator::execute_single`: timers and `PC += 2` first, then the
per-instruction effect.  Rust panics (register/memory index out of bounds,
sprite slice out of range) are `none`; `u8`/`u16` arithmetic wraps. -/
def execute_single (env : Env) (instruction : Instruction) (s₀ : Chip8) : Option Chip8 :=
  let s := tick s₀
  match instruction with
  | .ClearScreen => some { s with screen := fun _ _ => 0 }
  | .Return =>
      let sp := (s.stack_pointer + 255) % 256
      some { s with stack_pointer := sp, program_counter := s.stack sp }
  | .Goto addr => some { s with program_counter := addr }
  | .Call addr =>
      some { s with
        stack := updf s.stack s.stack_pointer s.program_counter
        stack_pointer := (s.stack_pointer + 1) % 256
        program_counter := addr }
  | .IfRegEqConst x n => do
      let v ← getReg s x
      some (if v = n then skip2 s else s)
  | .IfRegNeqConst x n => do
      let v ← getReg s x
      some (if v ≠ n then skip2 s else s)
  | .IfRegEqReg x y => do
      let a ← getReg s x
      let b ← getReg s y
      some (if a = b then skip2 s else s)
  | .SetRegToConst x n => setReg s x n
  | .IncRegByConst x n => do
      let v ← getReg s x
      setReg s x ((v + n) % 256)
  | .SetRegToReg x y => do
      let v ← getReg s y
      setReg s x v
  | .BitwiseOr x y => do
      let a ← getReg s x
      let b ← getReg s y
      setReg s x (a ||| b)
  | .BitwiseAnd x y => do
      let a ← getReg s x
      let b ← getReg s y
      setReg s x (a &&& b)
  | .BitwiseXor x y => do
      let a ← getReg s x
      let b ← getReg s y
      setReg s x (a ^^^ b)
  | .IncRegByReg x y => do
      let xv ← getReg s x
      let yv ← getReg s y
      let s₁ ← setReg s x ((xv + yv) % 256)
      setReg s₁ 0xF (if 255 < xv + yv then 1 else 0)
  | .DecRegByReg x y => do
      let xv ← getReg s x
      let yv ← getReg s y
      let s₁ ← setReg s x ((xv + 256 - yv) % 256)
      setReg s₁ 0xF (if xv < yv then 0 else 1)
  | .BitshiftRight x => do
      let value ← getReg s x
      let s₁ ← setReg s 0xF (value &&& 1)
      let cur ← getReg s₁ x
      setReg s₁ x (cur >>> 1)
  | .SetVxVyMinusVx x y => do
      let xv ← getReg s x
      let yv ← getReg s y
      let s₁ ← setReg s x ((yv + 256 - xv) % 256)
      setReg s₁ 0xF (if yv < xv then 0 else 1)
  | .BitshiftLeft x => do
      let value ← getReg s x
      let s₁ ← setReg s 0xF ((value &&& 0b10000000) >>> 7)
      let cur ← getReg s₁ x
      setReg s₁ x ((cur <<< 1) % 256)
  | .IfRegNeqReg x y => do
      let a ← getReg s x
      let b ← getReg s y
      some (if a ≠ b then skip2 s else s)
  | .SetI addr => some { s with i := addr }
  | .SetPcToV0PlusAddr addr => do
      let v ← getReg s 0
      some { s with program_counter := (v + addr) % 65536 }
  | .SetVxRand x n => setReg s x (env.rand &&& n)
  | .Draw x y n => do
      let xc ← getReg s x
      let yc ← getReg s y
      if s.i + n ≤ 4096 then
        let r := drawSprite s.memory s.i xc yc n s.screen
        setReg { s with screen := r.1 } 0xF r.2
      else none
  | .IfKeyEqVx x => do
      let v ← getReg s x
      some (if env.key = some v then skip2 s else s)
  | .IfKeyNeqVx x => do
      let v ← getReg s x
      some (if env.key ≠ some v then skip2 s else s)
  | .SetRegToDelayTimer x => setReg s x s.delay_timer
  | .SetRegToGetKey x => setReg s x env.blocking_key
  | .SetDelayTimerToReg x => do
      let v ← getReg s x
      some { s with delay_timer := v }
  | .SetSoundTimerToReg x => do
      let v ← getReg s x
      some { s with sound_timer := v }
  | .AddRegToI x => do
      let v ← getReg s x
      some { s with i := (s.i + v) % 65536 }
  | .SetIToSpriteAddrVx x => do
      let v ← getReg s x
      some { s with i := (5 * v) % 65536 }
  | .SetIToBcdOfReg x => do
      let v ← getReg s x
      if s.i + 2 < 4096 then
        some { s with memory := fun a =>
          if a = s.i + 2 then v % 10
          else if a = s.i + 1 then v / 10 % 10
          else if a = s.i then v / 10 / 10 % 10
          else s.memory a }
      else none
  | .RegDump x =>
      if x < 16 ∧ s.i + x < 4096 then
        some { s with memory := fun a =>
          if s.i ≤ a ∧ a ≤ s.i + x then s.registers (a - s.i) else s.memory a }
      else none
  | .RegLoad x =>
      if x < 16 ∧ s.i + x < 4096 then
        some { s with registers := fun j =>
          if j ≤ x then s.memory (s.i + j) else s.registers j }
      else none

/-- `Emulator::step`'s instruction fetch: the two bytes at `PC` and
`PC + 1`; indexing past the 4096-byte memory panics (`none`). -/
def fetch (s : Chip8) : Option (Nat × Nat) :=
  if s.program_counter + 1 < 4096 then
    some (s.memory s.program_counter, s.memory (s.program_counter + 1))
  else none

/-- `Emulator::step`: fetch, decode, execute. -/
def step (env : Env) (s : Chip8) : Option Chip8 := do
  let (left, right) ← fetch s
  let instruction ← from_two_u8 left right
  execute_single env instruction s

/-- `Emulator::execute_many`: execute instructions in succession. -/
def execute_many (env : Env) : List Instruction → Chip8 → Option Chip8
  | [], s => some s
  | instruction :: rest, s =>
      match execute_single env instruction s with
      | some s' => execute_many env rest s'
      | none => none

/-- The instructions that are neither `Call` nor `Return` and whose
execution always advances the program counter by exactly 2 (no jump, no
skip): every instruction except `Goto`, `Call`, `Return`, `SetPcToV0PlusAddr`
and the six conditional-skip opcodes. -/
def isPlainStep : Instruction → Bool
  | .Goto _ | .Call _ | .Return | .SetPcToV0PlusAddr _
  | .IfRegEqConst _ _ | .IfRegNeqConst _ _ | .IfRegEqReg _ _ | .IfRegNeqReg _ _
  | .IfKeyEqVx _ | .IfKeyNeqVx _ => false
  | _ => true

/-- `BalSeq k u l`: the instruction list `l` is a balanced sequence of
`Call`/`Return` pairs interleaved (at any nesting level) with other
instructions, where the top-level interleaved instructions are plain
(pc-neutral) steps, the nesting depth is at most `k`, and `u` counts the
top-level units (each top-level plain instruction and each top-level
`Call`..`Return` pair is one unit). -/
inductive BalSeq : Nat → Nat → List Instruction → Prop where
  | nil (k : Nat) : BalSeq k 0 []
  | plain {i : Instruction} {k u : Nat} {l : List Instruction} :
      isPlainStep i = true → BalSeq k u l → BalSeq k (u + 1) (i :: l)
  | wrap {addr : Nat} {inner rest : List Instruction} {k u v : Nat} :
      BalSeq k v inner → BalSeq (k + 1) u rest →
      BalSeq (k + 1) (u + 1) (.Call addr :: inner ++ .Return :: rest)

/-- A dummy environment (`DummyInput` reports no key). -/
def env0 : Env := ⟨none, 0, 0⟩

/-- The canonical CHIP-8 opcode patterns as listed in the specification's
opcode table (`00E0`, `00EE`, `1NNN`, `2NNN`, `3XNN`, `4XNN`, `5XY0`,
`6XNN`, `7XNN`, `8XY0..8XY7`, `8XYE`, `9XY0`, `ANNN`, `BNNN`, `CXNN`,
`DXYN`, `EX9E`, `EXA1`, `FX07`, `FX0A`, `FX15`, `FX18`, `FX1E`, `FX29`,
`FX33`, `FX55`, `FX65`), as a predicate on the four nibbles. -/
def canonical_opcode (a b c d : Nat) : Prop :=
  (a = 0 ∧ b = 0 ∧ c = 0xE ∧ d = 0) ∨
  (a = 0 ∧ b = 0 ∧ c = 0xE ∧ d = 0xE) ∨
  a = 1 ∨ a = 2 ∨ a = 3 ∨ a = 4 ∨
  (a = 5 ∧ d = 0) ∨
  a = 6 ∨ a = 7 ∨
  (a = 8 ∧ (d = 0 ∨ d = 1 ∨ d = 2 ∨ d = 3 ∨ d = 4 ∨ d = 5 ∨ d = 6 ∨ d = 7 ∨ d = 0xE)) ∨
  (a = 9 ∧ d = 0) ∨
  a = 0xA ∨ a = 0xB ∨ a = 0xC ∨ a = 0xD ∨
  (a = 0xE ∧ ((c = 9 ∧ d = 0xE) ∨ (c = 0xA ∧ d = 1))) ∨
  (a = 0xF ∧ ((c = 0 ∧ d = 7) ∨ (c = 0 ∧ d = 0xA) ∨
              (c = 1 ∧ d = 5) ∨ (c = 1 ∧ d = 8) ∨ (c = 1 ∧ d = 0xE) ∨
              (c = 2 ∧ d = 9) ∨ (c = 3 ∧ d = 3) ∨
              (c = 5 ∧ d = 5) ∨ (c = 6 ∧ d = 5)))

/-- The specification's operand encoding, per instruction: the X nibble
(low nibble of the high byte) and Y nibble (high nibble of the low byte)
are register indices, the low 8 bits are the 8-bit constant, the low
12 bits are the address, and the low nibble is the Draw sprite height. -/
def OperandSpec (left right : Nat) : Option Instruction → Prop
  | none => True
  | some ins =>
    match ins with
    | .ClearScreen | .Return => True
    | .Goto a | .Call a | .SetI a | .SetPcToV0PlusAddr a =>
        a = ((left <<< 8) ||| right) &&& 0xFFF
    | .IfRegEqConst x n | .IfRegNeqConst x n | .SetRegToConst x n
    | .IncRegByConst x n | .SetVxRand x n =>
        x = left &&& 0xF ∧ n = right
    | .IfRegEqReg x y | .SetRegToReg x y | .BitwiseOr x y | .BitwiseAnd x y
    | .BitwiseXor x y | .IncRegByReg x y | .DecRegByReg x y
    | .SetVxVyMinusVx x y | .IfRegNeqReg x y =>
        x = left &&& 0xF ∧ y = (right >>> 4) &&& 0xF
    | .Draw x y n =>
        x = left &&& 0xF ∧ y = (right >>> 4) &&& 0xF ∧ n = right &&& 0xF
    | .BitshiftRight x | .BitshiftLeft x | .IfKeyEqVx x | .IfKeyNeqVx x
    | .SetRegToDelayTimer x | .SetRegToGetKey x | .SetDelayTimerToReg x
    | .SetSoundTimerToReg x | .AddRegToI x | .SetIToSpriteAddrVx x
    | .SetIToBcdOfReg x | .RegDump x | .RegLoad x =>
        x = left &&& 0xF

/-- `x &&& 0xF` is `x % 16`. -/
theorem nib_and (x : Nat) : x &&& 0xF = x % 16 := Nat.and_pow_two_sub_one_eq_mod x 4

/-- `x >>> 4` is `x / 16`. -/
theorem nib_shift (x : Nat) : x >>> 4 = x / 16 := Nat.shiftRight_eq_div_pow x 4

section DecodeTheorems

/-- C5: the decoder succeeds exactly on the recognized nibble patterns of
the canonical opcode set; every other byte pair yields the fatal decode
error value `none` (never a fallback instruction).  The decoder is a pure
function of the byte pair, so its outcome is deterministic. -/
theorem decode_isSome_iff_canonical :
    ∀ left right : Nat,
      (from_two_u8 left right).isSome ↔
        canonical_opcode ((left >>> 4) &&& 0xF) (left &&& 0xF)
          ((right >>> 4) &&& 0xF) (right &&& 0xF) := by
  intro left right
  unfold from_two_u8 canonical_opcode
  dsimp only
  by_cases h1 : ((left >>> 4) &&& 0xF = 0 ∧ left &&& 0xF = 0 ∧ (right >>> 4) &&& 0xF = 0xE ∧ right &&& 0xF = 0)
  · rw [if_pos h1]
    exact ⟨fun _ => Or.inl (h1), fun _ => rfl⟩
  rw [if_neg h1]
  by_cases h2 : ((left >>> 4) &&& 0xF = 0 ∧ left &&& 0xF = 0 ∧ (right >>> 4) &&& 0xF = 0xE ∧ right &&& 0xF = 0xE)
  · rw [if_pos h2]
    exact ⟨fun _ => Or.inr (Or.inl (h2)), fun _ => rfl⟩
  rw [if_neg h2]
  by_cases h3 : (left >>> 4) &&& 0xF = 1
  · rw [if_pos h3]
    exact ⟨fun _ => Or.inr (Or.inr (Or.inl (h3))), fun _ => rfl⟩
  rw [if_neg h3]
  by_cases h4 : (left >>> 4) &&& 0xF = 2
  · rw [if_pos h4]
    exact ⟨fun _ => Or.inr (Or.inr (Or.inr (Or.inl (h4)))), fun _ => rfl⟩
  rw [if_neg h4]
  by_cases h5 : (left >>> 4) &&& 0xF = 3
  · rw [if_pos h5]
    exact ⟨fun _ => Or.inr (Or.inr (Or.inr (Or.inr (Or.inl (h5))))), fun _ => rfl⟩
  rw [if_neg h5]
  by_cases h6 : (left >>> 4) &&& 0xF = 4
  · rw [if_pos h6]
    exact ⟨fun _ => Or.inr (Or.inr (Or.inr (Or.inr (Or.inr (Or.inl (h6)))))), fun _ => rfl⟩
  rw [if_neg h6]
  by_cases h7 : ((left >>> 4) &&& 0xF = 5 ∧ right &&& 0xF = 0)
  · rw [if_pos h7]
    exact ⟨fun _ => Or.inr (Or.inr (Or.inr (Or.inr (Or.inr (Or.inr (Or.inl (h7))))))), fun _ => rfl⟩
  rw [if_neg h7]
  by_cases h8 : (left >>> 4) &&& 0xF = 6
  · rw [if_pos h8]
    exact ⟨fun _ => Or.inr (Or.inr (Or.inr (Or.inr (Or.inr (Or.inr (Or.inr (Or.inl (h8)))))))), fun _ => rfl⟩
  rw [if_neg h8]
  by_cases h9 : (left >>> 4) &&& 0xF = 7
  · rw [if_pos h9]
    exact ⟨fun _ => Or.inr (Or.inr (Or.inr (Or.inr (Or.inr (Or.inr (Or.inr (Or.inr (Or.inl (h9))))))))), fun _ => rfl⟩
  rw [if_neg h9]
  by_cases h10 : ((left >>> 4) &&& 0xF = 8 ∧ right &&& 0xF = 0)
  · rw [if_pos h10]
    exact ⟨fun _ => Or.inr (Or.inr (Or.inr (Or.inr (Or.inr (Or.inr (Or.inr (Or.inr (Or.inr (Or.inl (⟨h10.1, Or.inl h10.2⟩)))))))))), fun _ => rfl⟩
  rw [if_neg h10]
  by_cases h11 : ((left >>> 4) &&& 0xF = 8 ∧ right &&& 0xF = 1)
  · rw [if_pos h11]
    exact ⟨fun _ => Or.inr (Or.inr (Or.inr (Or.inr (Or.inr (Or.inr (Or.inr (Or.inr (Or.inr (Or.inl (⟨h11.1, Or.inr (Or.inl h11.2)⟩)))))))))), fun _ => rfl⟩
  rw [if_neg h11]
  by_cases h12 : ((left >>> 4) &&& 0xF = 8 ∧ right &&& 0xF = 2)
  · rw [if_pos h12]
    exact ⟨fun _ => Or.inr (Or.inr (Or.inr (Or.inr (Or.inr (Or.inr (Or.inr (Or.inr (Or.inr (Or.inl (⟨h12.1, Or.inr (Or.inr (Or.inl h12.2))⟩)))))))))), fun _ => rfl⟩
  rw [if_neg h12]
  by_cases h13 : ((left >>> 4) &&& 0xF = 8 ∧ right &&& 0xF = 3)
  · rw [if_pos h13]
    exact ⟨fun _ => Or.inr (Or.inr (Or.inr (Or.inr (Or.inr (Or.inr (Or.inr (Or.inr (Or.inr (Or.inl (⟨h13.1, Or.inr (Or.inr (Or.inr (Or.inl h13.2)))⟩)))))))))), fun _ => rfl⟩
  rw [if_neg h13]
  by_cases h14 : ((left >>> 4) &&& 0xF = 8 ∧ right &&& 0xF = 4)
  · rw [if_pos h14]
    exact ⟨fun _ => Or.inr (Or.inr (Or.inr (Or.inr (Or.inr (Or.inr (Or.inr (Or.inr (Or.inr (Or.inl (⟨h14.1, Or.inr (Or.inr (Or.inr (Or.inr (Or.inl h14.2))))⟩)))))))))), fun _ => rfl⟩
  rw [if_neg h14]
  by_cases h15 : ((left >>> 4) &&& 0xF = 8 ∧ right &&& 0xF = 5)
  · rw [if_pos h15]
    exact ⟨fun _ => Or.inr (Or.inr (Or.inr (Or.inr (Or.inr (Or.inr (Or.inr (Or.inr (Or.inr (Or.inl (⟨h15.1, Or.inr (Or.inr (Or.inr (Or.inr (Or.inr (Or.inl h15.2)))))⟩)))))))))), fun _ => rfl⟩
  rw [if_neg h15]
  by_cases h16 : ((left >>> 4) &&& 0xF = 8 ∧ right &&& 0xF = 6)
  · rw [if_pos h16]
    exact ⟨fun _ => Or.inr (Or.inr (Or.inr (Or.inr (Or.inr (Or.inr (Or.inr (Or.inr (Or.inr (Or.inl (⟨h16.1, Or.inr (Or.inr (Or.inr (Or.inr (Or.inr (Or.inr (Or.inl h16.2))))))⟩)))))))))), fun _ => rfl⟩
  rw [if_neg h16]
  by_cases h17 : ((left >>> 4) &&& 0xF = 8 ∧ right &&& 0xF = 7)
  · rw [if_pos h17]
    exact ⟨fun _ => Or.inr (Or.inr (Or.inr (Or.inr (Or.inr (Or.inr (Or.inr (Or.inr (Or.inr (Or.inl (⟨h17.1, Or.inr (Or.inr (Or.inr (Or.inr (Or.inr (Or.inr (Or.inr (Or.inl h17.2)))))))⟩)))))))))), fun _ => rfl⟩
  rw [if_neg h17]
  by_cases h18 : ((left >>> 4) &&& 0xF = 8 ∧ right &&& 0xF = 0xE)
  · rw [if_pos h18]
    exact ⟨fun _ => Or.inr (Or.inr (Or.inr (Or.inr (Or.inr (Or.inr (Or.inr (Or.inr (Or.inr (Or.inl (⟨h18.1, Or.inr (Or.inr (Or.inr (Or.inr (Or.inr (Or.inr (Or.inr (Or.inr (h18.2))))))))⟩)))))))))), fun _ => rfl⟩
  rw [if_neg h18]
  by_cases h19 : ((left >>> 4) &&& 0xF = 9 ∧ right &&& 0xF = 0)
  · rw [if_pos h19]
    exact ⟨fun _ => Or.inr (Or.inr (Or.inr (Or.inr (Or.inr (Or.inr (Or.inr (Or.inr (Or.inr (Or.inr (Or.inl (h19))))))))))), fun _ => rfl⟩
  rw [if_neg h19]
  by_cases h20 : (left >>> 4) &&& 0xF = 0xA
  · rw [if_pos h20]
    exact ⟨fun _ => Or.inr (Or.inr (Or.inr (Or.inr (Or.inr (Or.inr (Or.inr (Or.inr (Or.inr (Or.inr (Or.inr (Or.inl (h20)))))))))))), fun _ => rfl⟩
  rw [if_neg h20]
  by_cases h21 : (left >>> 4) &&& 0xF = 0xB
  · rw [if_pos h21]
    exact ⟨fun _ => Or.inr (Or.inr (Or.inr (Or.inr (Or.inr (Or.inr (Or.inr (Or.inr (Or.inr (Or.inr (Or.inr (Or.inr (Or.inl (h21))))))))))))), fun _ => rfl⟩
  rw [if_neg h21]
  by_cases h22 : (left >>> 4) &&& 0xF = 0xC
  · rw [if_pos h22]
    exact ⟨fun _ => Or.inr (Or.inr (Or.inr (Or.inr (Or.inr (Or.inr (Or.inr (Or.inr (Or.inr (Or.inr (Or.inr (Or.inr (Or.inr (Or.inl (h22)))))))))))))), fun _ => rfl⟩
  rw [if_neg h22]
  by_cases h23 : (left >>> 4) &&& 0xF = 0xD
  · rw [if_pos h23]
    exact ⟨fun _ => Or.inr (Or.inr (Or.inr (Or.inr (Or.inr (Or.inr (Or.inr (Or.inr (Or.inr (Or.inr (Or.inr (Or.inr (Or.inr (Or.inr (Or.inl (h23))))))))))))))), fun _ => rfl⟩
  rw [if_neg h23]
  by_cases h24 : ((left >>> 4) &&& 0xF = 0xE ∧ (right >>> 4) &&& 0xF = 9 ∧ right &&& 0xF = 0xE)
  · rw [if_pos h24]
    exact ⟨fun _ => Or.inr (Or.inr (Or.inr (Or.inr (Or.inr (Or.inr (Or.inr (Or.inr (Or.inr (Or.inr (Or.inr (Or.inr (Or.inr (Or.inr (Or.inr (Or.inl (⟨h24.1, Or.inl h24.2⟩)))))))))))))))), fun _ => rfl⟩
  rw [if_neg h24]
  by_cases h25 : ((left >>> 4) &&& 0xF = 0xE ∧ (right >>> 4) &&& 0xF = 0xA ∧ right &&& 0xF = 1)
  · rw [if_pos h25]
    exact ⟨fun _ => Or.inr (Or.inr (Or.inr (Or.inr (Or.inr (Or.inr (Or.inr (Or.inr (Or.inr (Or.inr (Or.inr (Or.inr (Or.inr (Or.inr (Or.inr (Or.inl (⟨h25.1, Or.inr (h25.2)⟩)))))))))))))))), fun _ => rfl⟩
  rw [if_neg h25]
  by_cases h26 : ((left >>> 4) &&& 0xF = 0xF ∧ (right >>> 4) &&& 0xF = 0 ∧ right &&& 0xF = 7)
  · rw [if_pos h26]
    exact ⟨fun _ => Or.inr (Or.inr (Or.inr (Or.inr (Or.inr (Or.inr (Or.inr (Or.inr (Or.inr (Or.inr (Or.inr (Or.inr (Or.inr (Or.inr (Or.inr (Or.inr ((⟨h26.1, Or.inl h26.2⟩))))))))))))))))), fun _ => rfl⟩
  rw [if_neg h26]
  by_cases h27 : ((left >>> 4) &&& 0xF = 0xF ∧ (right >>> 4) &&& 0xF = 0 ∧ right &&& 0xF = 0xA)
  · rw [if_pos h27]
    exact ⟨fun _ => Or.inr (Or.inr (Or.inr (Or.inr (Or.inr (Or.inr (Or.inr (Or.inr (Or.inr (Or.inr (Or.inr (Or.inr (Or.inr (Or.inr (Or.inr (Or.inr ((⟨h27.1, Or.inr (Or.inl h27.2)⟩))))))))))))))))), fun _ => rfl⟩
  rw [if_neg h27]
  by_cases h28 : ((left >>> 4) &&& 0xF = 0xF ∧ (right >>> 4) &&& 0xF = 1 ∧ right &&& 0xF = 5)
  · rw [if_pos h28]
    exact ⟨fun _ => Or.inr (Or.inr (Or.inr (Or.inr (Or.inr (Or.inr (Or.inr (Or.inr (Or.inr (Or.inr (Or.inr (Or.inr (Or.inr (Or.inr (Or.inr (Or.inr ((⟨h28.1, Or.inr (Or.inr (Or.inl h28.2))⟩))))))))))))))))), fun _ => rfl⟩
  rw [if_neg h28]
  by_cases h29 : ((left >>> 4) &&& 0xF = 0xF ∧ (right >>> 4) &&& 0xF = 1 ∧ right &&& 0xF = 8)
  · rw [if_pos h29]
    exact ⟨fun _ => Or.inr (Or.inr (Or.inr (Or.inr (Or.inr (Or.inr (Or.inr (Or.inr (Or.inr (Or.inr (Or.inr (Or.inr (Or.inr (Or.inr (Or.inr (Or.inr ((⟨h29.1, Or.inr (Or.inr (Or.inr (Or.inl h29.2)))⟩))))))))))))))))), fun _ => rfl⟩
  rw [if_neg h29]
  by_cases h30 : ((left >>> 4) &&& 0xF = 0xF ∧ (right >>> 4) &&& 0xF = 1 ∧ right &&& 0xF = 0xE)
  · rw [if_pos h30]
    exact ⟨fun _ => Or.inr (Or.inr (Or.inr (Or.inr (Or.inr (Or.inr (Or.inr (Or.inr (Or.inr (Or.inr (Or.inr (Or.inr (Or.inr (Or.inr (Or.inr (Or.inr ((⟨h30.1, Or.inr (Or.inr (Or.inr (Or.inr (Or.inl h30.2))))⟩))))))))))))))))), fun _ => rfl⟩
  rw [if_neg h30]
  by_cases h31 : ((left >>> 4) &&& 0xF = 0xF ∧ (right >>> 4) &&& 0xF = 2 ∧ right &&& 0xF = 9)
  · rw [if_pos h31]
    exact ⟨fun _ => Or.inr (Or.inr (Or.inr (Or.inr (Or.inr (Or.inr (Or.inr (Or.inr (Or.inr (Or.inr (Or.inr (Or.inr (Or.inr (Or.inr (Or.inr (Or.inr ((⟨h31.1, Or.inr (Or.inr (Or.inr (Or.inr (Or.inr (Or.inl h31.2)))))⟩))))))))))))))))), fun _ => rfl⟩
  rw [if_neg h31]
  by_cases h32 : ((left >>> 4) &&& 0xF = 0xF ∧ (right >>> 4) &&& 0xF = 3 ∧ right &&& 0xF = 3)
  · rw [if_pos h32]
    exact ⟨fun _ => Or.inr (Or.inr (Or.inr (Or.inr (Or.inr (Or.inr (Or.inr (Or.inr (Or.inr (Or.inr (Or.inr (Or.inr (Or.inr (Or.inr (Or.inr (Or.inr ((⟨h32.1, Or.inr (Or.inr (Or.inr (Or.inr (Or.inr (Or.inr (Or.inl h32.2))))))⟩))))))))))))))))), fun _ => rfl⟩
  rw [if_neg h32]
  by_cases h33 : ((left >>> 4) &&& 0xF = 0xF ∧ (right >>> 4) &&& 0xF = 5 ∧ right &&& 0xF = 5)
  · rw [if_pos h33]
    exact ⟨fun _ => Or.inr (Or.inr (Or.inr (Or.inr (Or.inr (Or.inr (Or.inr (Or.inr (Or.inr (Or.inr (Or.inr (Or.inr (Or.inr (Or.inr (Or.inr (Or.inr ((⟨h33.1, Or.inr (Or.inr (Or.inr (Or.inr (Or.inr (Or.inr (Or.inr (Or.inl h33.2)))))))⟩))))))))))))))))), fun _ => rfl⟩
  rw [if_neg h33]
  by_cases h34 : ((left >>> 4) &&& 0xF = 0xF ∧ (right >>> 4) &&& 0xF = 6 ∧ right &&& 0xF = 5)
  · rw [if_pos h34]
    exact ⟨fun _ => Or.inr (Or.inr (Or.inr (Or.inr (Or.inr (Or.inr (Or.inr (Or.inr (Or.inr (Or.inr (Or.inr (Or.inr (Or.inr (Or.inr (Or.inr (Or.inr ((⟨h34.1, Or.inr (Or.inr (Or.inr (Or.inr (Or.inr (Or.inr (Or.inr (Or.inr (h34.2))))))))⟩))))))))))))))))), fun _ => rfl⟩
  rw [if_neg h34]
  constructor
  · intro hx
    exact absurd hx (by simp)
  · intro hD
    exfalso
    rcases hD with (H|H|H|H|H|H|H|H|H|⟨Ha, Hd⟩|H|H|H|H|H|⟨Ha, Hcd⟩|⟨Ha, Hcd⟩)
    · exact h1 H
    · exact h2 H
    · exact h3 H
    · exact h4 H
    · exact h5 H
    · exact h6 H
    · exact h7 H
    · exact h8 H
    · exact h9 H
    · rcases Hd with (Hd|Hd|Hd|Hd|Hd|Hd|Hd|Hd|Hd)
      · exact h10 ⟨Ha, Hd⟩
      · exact h11 ⟨Ha, Hd⟩
      · exact h12 ⟨Ha, Hd⟩
      · exact h13 ⟨Ha, Hd⟩
      · exact h14 ⟨Ha, Hd⟩
      · exact h15 ⟨Ha, Hd⟩
      · exact h16 ⟨Ha, Hd⟩
      · exact h17 ⟨Ha, Hd⟩
      · exact h18 ⟨Ha, Hd⟩
    · exact h19 H
    · exact h20 H
    · exact h21 H
    · exact h22 H
    · exact h23 H
    · rcases Hcd with (Hcd|Hcd)
      · exact h24 ⟨Ha, Hcd⟩
      · exact h25 ⟨Ha, Hcd⟩
    · rcases Hcd with (Hcd|Hcd|Hcd|Hcd|Hcd|Hcd|Hcd|Hcd|Hcd)
      · exact h26 ⟨Ha, Hcd⟩
      · exact h27 ⟨Ha, Hcd⟩
      · exact h28 ⟨Ha, Hcd⟩
      · exact h29 ⟨Ha, Hcd⟩
      · exact h30 ⟨Ha, Hcd⟩
      · exact h31 ⟨Ha, Hcd⟩
      · exact h32 ⟨Ha, Hcd⟩
      · exact h33 ⟨Ha, Hcd⟩
      · exact h34 ⟨Ha, Hcd⟩

/-- C6: for every byte pair, whatever instruction the decoder produces
carries exactly the operand fields of the 16-bit word (X/Y nibbles as
register indices, low byte as the constant, low 12 bits as the address,
low nibble as the Draw height); in particular `decode(0x8A, 0xB4)` is
`AddReg(VA, VB)` and `decode(0x3A, 0x08)` is `SkipEq(VA, 8)`. -/
theorem decode_operand_fields :
    (∀ left right : Nat, OperandSpec left right (from_two_u8 left right)) ∧
    from_two_u8 0x8A 0xB4 = some (.IncRegByReg 0xA 0xB) ∧
    from_two_u8 0x3A 0x08 = some (.IfRegEqConst 0xA 0x08) := by
  refine ⟨fun left right => ?_, by decide, by decide⟩
  unfold from_two_u8
  dsimp only
  by_cases h1 : ((left >>> 4) &&& 0xF = 0 ∧ left &&& 0xF = 0 ∧ (right >>> 4) &&& 0xF = 0xE ∧ right &&& 0xF = 0)
  · rw [if_pos h1]
    simp [OperandSpec, last_12_bits, last_8_bits, as_u16]
  rw [if_neg h1]
  by_cases h2 : ((left >>> 4) &&& 0xF = 0 ∧ left &&& 0xF = 0 ∧ (right >>> 4) &&& 0xF = 0xE ∧ right &&& 0xF = 0xE)
  · rw [if_pos h2]
    simp [OperandSpec, last_12_bits, last_8_bits, as_u16]
  rw [if_neg h2]
  by_cases h3 : (left >>> 4) &&& 0xF = 1
  · rw [if_pos h3]
    simp [OperandSpec, last_12_bits, last_8_bits, as_u16]
  rw [if_neg h3]
  by_cases h4 : (left >>> 4) &&& 0xF = 2
  · rw [if_pos h4]
    simp [OperandSpec, last_12_bits, last_8_bits, as_u16]
  rw [if_neg h4]
  by_cases h5 : (left >>> 4) &&& 0xF = 3
  · rw [if_pos h5]
    simp [OperandSpec, last_12_bits, last_8_bits, as_u16]
  rw [if_neg h5]
  by_cases h6 : (left >>> 4) &&& 0xF = 4
  · rw [if_pos h6]
    simp [OperandSpec, last_12_bits, last_8_bits, as_u16]
  rw [if_neg h6]
  by_cases h7 : ((left >>> 4) &&& 0xF = 5 ∧ right &&& 0xF = 0)
  · rw [if_pos h7]
    simp [OperandSpec, last_12_bits, last_8_bits, as_u16]
  rw [if_neg h7]
  by_cases h8 : (left >>> 4) &&& 0xF = 6
  · rw [if_pos h8]
    simp [OperandSpec, last_12_bits, last_8_bits, as_u16]
  rw [if_neg h8]
  by_cases h9 : (left >>> 4) &&& 0xF = 7
  · rw [if_pos h9]
    simp [OperandSpec, last_12_bits, last_8_bits, as_u16]
  rw [if_neg h9]
  by_cases h10 : ((left >>> 4) &&& 0xF = 8 ∧ right &&& 0xF = 0)
  · rw [if_pos h10]
    simp [OperandSpec, last_12_bits, last_8_bits, as_u16]
  rw [if_neg h10]
  by_cases h11 : ((left >>> 4) &&& 0xF = 8 ∧ right &&& 0xF = 1)
  · rw [if_pos h11]
    simp [OperandSpec, last_12_bits, last_8_bits, as_u16]
  rw [if_neg h11]
  by_cases h12 : ((left >>> 4) &&& 0xF = 8 ∧ right &&& 0xF = 2)
  · rw [if_pos h12]
    simp [OperandSpec, last_12_bits, last_8_bits, as_u16]
  rw [if_neg h12]
  by_cases h13 : ((left >>> 4) &&& 0xF = 8 ∧ right &&& 0xF = 3)
  · rw [if_pos h13]
    simp [OperandSpec, last_12_bits, last_8_bits, as_u16]
  rw [if_neg h13]
  by_cases h14 : ((left >>> 4) &&& 0xF = 8 ∧ right &&& 0xF = 4)
  · rw [if_pos h14]
    simp [OperandSpec, last_12_bits, last_8_bits, as_u16]
  rw [if_neg h14]
  by_cases h15 : ((left >>> 4) &&& 0xF = 8 ∧ right &&& 0xF = 5)
  · rw [if_pos h15]
    simp [OperandSpec, last_12_bits, last_8_bits, as_u16]
  rw [if_neg h15]
  by_cases h16 : ((left >>> 4) &&& 0xF = 8 ∧ right &&& 0xF = 6)
  · rw [if_pos h16]
    simp [OperandSpec, last_12_bits, last_8_bits, as_u16]
  rw [if_neg h16]
  by_cases h17 : ((left >>> 4) &&& 0xF = 8 ∧ right &&& 0xF = 7)
  · rw [if_pos h17]
    simp [OperandSpec, last_12_bits, last_8_bits, as_u16]
  rw [if_neg h17]
  by_cases h18 : ((left >>> 4) &&& 0xF = 8 ∧ right &&& 0xF = 0xE)
  · rw [if_pos h18]
    simp [OperandSpec, last_12_bits, last_8_bits, as_u16]
  rw [if_neg h18]
  by_cases h19 : ((left >>> 4) &&& 0xF = 9 ∧ right &&& 0xF = 0)
  · rw [if_pos h19]
    simp [OperandSpec, last_12_bits, last_8_bits, as_u16]
  rw [if_neg h19]
  by_cases h20 : (left >>> 4) &&& 0xF = 0xA
  · rw [if_pos h20]
    simp [OperandSpec, last_12_bits, last_8_bits, as_u16]
  rw [if_neg h20]
  by_cases h21 : (left >>> 4) &&& 0xF = 0xB
  · rw [if_pos h21]
    simp [OperandSpec, last_12_bits, last_8_bits, as_u16]
  rw [if_neg h21]
  by_cases h22 : (left >>> 4) &&& 0xF = 0xC
  · rw [if_pos h22]
    simp [OperandSpec, last_12_bits, last_8_bits, as_u16]
  rw [if_neg h22]
  by_cases h23 : (left >>> 4) &&& 0xF = 0xD
  · rw [if_pos h23]
    simp [OperandSpec, last_12_bits, last_8_bits, as_u16]
  rw [if_neg h23]
  by_cases h24 : ((left >>> 4) &&& 0xF = 0xE ∧ (right >>> 4) &&& 0xF = 9 ∧ right &&& 0xF = 0xE)
  · rw [if_pos h24]
    simp [OperandSpec, last_12_bits, last_8_bits, as_u16]
  rw [if_neg h24]
  by_cases h25 : ((left >>> 4) &&& 0xF = 0xE ∧ (right >>> 4) &&& 0xF = 0xA ∧ right &&& 0xF = 1)
  · rw [if_pos h25]
    simp [OperandSpec, last_12_bits, last_8_bits, as_u16]
  rw [if_neg h25]
  by_cases h26 : ((left >>> 4) &&& 0xF = 0xF ∧ (right >>> 4) &&& 0xF = 0 ∧ right &&& 0xF = 7)
  · rw [if_pos h26]
    simp [OperandSpec, last_12_bits, last_8_bits, as_u16]
  rw [if_neg h26]
  by_cases h27 : ((left >>> 4) &&& 0xF = 0xF ∧ (right >>> 4) &&& 0xF = 0 ∧ right &&& 0xF = 0xA)
  · rw [if_pos h27]
    simp [OperandSpec, last_12_bits, last_8_bits, as_u16]
  rw [if_neg h27]
  by_cases h28 : ((left >>> 4) &&& 0xF = 0xF ∧ (right >>> 4) &&& 0xF = 1 ∧ right &&& 0xF = 5)
  · rw [if_pos h28]
    simp [OperandSpec, last_12_bits, last_8_bits, as_u16]
  rw [if_neg h28]
  by_cases h29 : ((left >>> 4) &&& 0xF = 0xF ∧ (right >>> 4) &&& 0xF = 1 ∧ right &&& 0xF = 8)
  · rw [if_pos h29]
    simp [OperandSpec, last_12_bits, last_8_bits, as_u16]
  rw [if_neg h29]
  by_cases h30 : ((left >>> 4) &&& 0xF = 0xF ∧ (right >>> 4) &&& 0xF = 1 ∧ right &&& 0xF = 0xE)
  · rw [if_pos h30]
    simp [OperandSpec, last_12_bits, last_8_bits, as_u16]
  rw [if_neg h30]
  by_cases h31 : ((left >>> 4) &&& 0xF = 0xF ∧ (right >>> 4) &&& 0xF = 2 ∧ right &&& 0xF = 9)
  · rw [if_pos h31]
    simp [OperandSpec, last_12_bits, last_8_bits, as_u16]
  rw [if_neg h31]
  by_cases h32 : ((left >>> 4) &&& 0xF = 0xF ∧ (right >>> 4) &&& 0xF = 3 ∧ right &&& 0xF = 3)
  · rw [if_pos h32]
    simp [OperandSpec, last_12_bits, last_8_bits, as_u16]
  rw [if_neg h32]
  by_cases h33 : ((left >>> 4) &&& 0xF = 0xF ∧ (right >>> 4) &&& 0xF = 5 ∧ right &&& 0xF = 5)
  · rw [if_pos h33]
    simp [OperandSpec, last_12_bits, last_8_bits, as_u16]
  rw [if_neg h33]
  by_cases h34 : ((left >>> 4) &&& 0xF = 0xF ∧ (right >>> 4) &&& 0xF = 6 ∧ right &&& 0xF = 5)
  · rw [if_pos h34]
    simp [OperandSpec, last_12_bits, last_8_bits, as_u16]
  rw [if_neg h34]
  trivial

/-- C10: the decoder ignores the Y nibble for the two shift opcodes: for
every register index `x` and every third nibble `y`, the byte pair with
nibbles `(8, x, y, 6)` decodes to `ShiftRight(x)` and `(8, x, y, 0xE)`
decodes to `ShiftLeft(x)`, never a decode error, with the operand
unaffected by `y`. -/
theorem shift_decode_ignores_y :
    ∀ x y : Nat, x < 16 → y < 16 →
      from_two_u8 (0x80 + x) (16 * y + 6) = some (.BitshiftRight x) ∧
      from_two_u8 (0x80 + x) (16 * y + 0xE) = some (.BitshiftLeft x) := by
  intro x y hx hy
  have h1 : ((0x80 + x) >>> 4) &&& 0xF = 8 := by
    simp only [nib_shift, nib_and]; omega
  have h2 : (0x80 + x) &&& 0xF = x := by
    simp only [nib_and]; omega
  have h3 : ((16 * y + 6) >>> 4) &&& 0xF = y := by
    simp only [nib_shift, nib_and]; omega
  have h4 : (16 * y + 6) &&& 0xF = 6 := by
    simp only [nib_and]; omega
  have h5 : ((16 * y + 0xE) >>> 4) &&& 0xF = y := by
    simp only [nib_shift, nib_and]; omega
  have h6 : (16 * y + 0xE) &&& 0xF = 0xE := by
    simp only [nib_and]; omega
  constructor
  · unfold from_two_u8
    dsimp only
    rw [h1, h2, h3, h4]
    norm_num
  · unfold from_two_u8
    dsimp only
    rw [h1, h2, h5, h6]
    norm_num

/-- Witness for C10 at `x = 3`, `y = 5`. -/
theorem shift_decode_ignores_y_witness :
    (3 : Nat) < 16 ∧ (5 : Nat) < 16 ∧
      (from_two_u8 (0x80 + 3) (16 * 5 + 6) = some (.BitshiftRight 3) ∧
       from_two_u8 (0x80 + 3) (16 * 5 + 0xE) = some (.BitshiftLeft 3)) :=
  ⟨by norm_num, by norm_num, shift_decode_ignores_y 3 5 (by norm_num) (by norm_num)⟩

end DecodeTheorems

section ExecHelpers

theorem updf_self (f : Nat → Nat) (x v : Nat) : updf f x v x = v := by
  simp [updf]

theorem updf_other (f : Nat → Nat) (x v j : Nat) (h : j ≠ x) : updf f x v j = f j := by
  simp [updf, h]

theorem getReg_pos {s : Chip8} {x : Nat} (hx : x < 16) :
    getReg s x = some (s.registers x) := by
  simp [getReg, hx]

theorem setReg_pos {s : Chip8} {x : Nat} (hx : x < 16) (v : Nat) :
    setReg s x v = some { s with registers := updf s.registers x v } := by
  simp [setReg, hx]

theorem tick_registers (s : Chip8) : (tick s).registers = s.registers := rfl

theorem tick_memory (s : Chip8) : (tick s).memory = s.memory := rfl

theorem tick_i (s : Chip8) : (tick s).i = s.i := rfl

theorem tick_screen (s : Chip8) : (tick s).screen = s.screen := rfl

theorem tick_stack (s : Chip8) : (tick s).stack = s.stack := rfl

theorem tick_sp (s : Chip8) : (tick s).stack_pointer = s.stack_pointer := rfl

theorem tick_pc (s : Chip8) : (tick s).program_counter = (s.program_counter + 2) % 65536 := rfl

theorem tick_delay (s : Chip8) :
    (tick s).delay_timer = (if 0 < s.delay_timer then s.delay_timer - 1 else s.delay_timer) := rfl

theorem tick_sound (s : Chip8) :
    (tick s).sound_timer = (if 0 < s.sound_timer then s.sound_timer - 1 else s.sound_timer) := rfl

theorem skip2_delay (s : Chip8) : (skip2 s).delay_timer = s.delay_timer := rfl

theorem skip2_sound (s : Chip8) : (skip2 s).sound_timer = s.sound_timer := rfl

theorem skip2_sp (s : Chip8) : (skip2 s).stack_pointer = s.stack_pointer := rfl

theorem skip2_stack (s : Chip8) : (skip2 s).stack = s.stack := rfl

theorem exec_ClearScreen (env : Env) (s s' : Chip8) :
    execute_single env (.ClearScreen) s = some s' ↔
      s' = { tick s with screen := fun _ _ => 0 } := by
  simp [execute_single, getReg, setReg, eq_comm, tick_registers, tick_memory, tick_i, tick_screen, tick_stack, tick_sp, tick_pc, tick_delay, tick_sound]

theorem exec_Return (env : Env) (s s' : Chip8) :
    execute_single env (.Return) s = some s' ↔
      s' = { tick s with stack_pointer := (s.stack_pointer + 255) % 256, program_counter := s.stack ((s.stack_pointer + 255) % 256) } := by
  simp [execute_single, getReg, setReg, eq_comm, tick_registers, tick_memory, tick_i, tick_screen, tick_stack, tick_sp, tick_pc, tick_delay, tick_sound]

theorem exec_Goto (env : Env) (s s' : Chip8) (addr : Nat) :
    execute_single env (.Goto addr) s = some s' ↔
      s' = { tick s with program_counter := addr } := by
  simp [execute_single, getReg, setReg, eq_comm, tick_registers, tick_memory, tick_i, tick_screen, tick_stack, tick_sp, tick_pc, tick_delay, tick_sound]

theorem exec_Call (env : Env) (s s' : Chip8) (addr : Nat) :
    execute_single env (.Call addr) s = some s' ↔
      s' = { tick s with stack := updf s.stack s.stack_pointer ((s.program_counter + 2) % 65536), stack_pointer := (s.stack_pointer + 1) % 256, program_counter := addr } := by
  simp [execute_single, getReg, setReg, eq_comm, tick_registers, tick_memory, tick_i, tick_screen, tick_stack, tick_sp, tick_pc, tick_delay, tick_sound]

theorem exec_IfRegEqConst (env : Env) (s s' : Chip8) (x n : Nat) :
    execute_single env (.IfRegEqConst x n) s = some s' ↔
      x < 16 ∧
      s' = (if s.registers x = n then skip2 (tick s) else tick s) := by
  by_cases hx : x < 16 <;>
    simp [execute_single, getReg, setReg, hx, eq_comm, tick_registers, tick_memory, tick_i, tick_screen, tick_stack, tick_sp, tick_pc, tick_delay, tick_sound]

theorem exec_IfRegNeqConst (env : Env) (s s' : Chip8) (x n : Nat) :
    execute_single env (.IfRegNeqConst x n) s = some s' ↔
      x < 16 ∧
      s' = (if s.registers x ≠ n then skip2 (tick s) else tick s) := by
  by_cases hx : x < 16 <;>
    simp [execute_single, getReg, setReg, hx, eq_comm, tick_registers, tick_memory, tick_i, tick_screen, tick_stack, tick_sp, tick_pc, tick_delay, tick_sound]

theorem exec_IfRegEqReg (env : Env) (s s' : Chip8) (x y : Nat) :
    execute_single env (.IfRegEqReg x y) s = some s' ↔
      x < 16 ∧
      y < 16 ∧
      s' = (if s.registers x = s.registers y then skip2 (tick s) else tick s) := by
  by_cases hx : x < 16 <;> by_cases hy : y < 16 <;>
    simp [execute_single, getReg, setReg, hx, hy, eq_comm, tick_registers, tick_memory, tick_i, tick_screen, tick_stack, tick_sp, tick_pc, tick_delay, tick_sound]

theorem exec_SetRegToConst (env : Env) (s s' : Chip8) (x n : Nat) :
    execute_single env (.SetRegToConst x n) s = some s' ↔
      x < 16 ∧
      s' = { tick s with registers := updf s.registers x n } := by
  by_cases hx : x < 16 <;>
    simp [execute_single, getReg, setReg, hx, eq_comm, tick_registers, tick_memory, tick_i, tick_screen, tick_stack, tick_sp, tick_pc, tick_delay, tick_sound]

theorem exec_IncRegByConst (env : Env) (s s' : Chip8) (x n : Nat) :
    execute_single env (.IncRegByConst x n) s = some s' ↔
      x < 16 ∧
      s' = { tick s with registers := updf s.registers x ((s.registers x + n) % 256) } := by
  by_cases hx : x < 16 <;>
    simp [execute_single, getReg, setReg, hx, eq_comm, tick_registers, tick_memory, tick_i, tick_screen, tick_stack, tick_sp, tick_pc, tick_delay, tick_sound]

theorem exec_SetRegToReg (env : Env) (s s' : Chip8) (x y : Nat) :
    execute_single env (.SetRegToReg x y) s = some s' ↔
      x < 16 ∧
      y < 16 ∧
      s' = { tick s with registers := updf s.registers x (s.registers y) } := by
  by_cases hx : x < 16 <;> by_cases hy : y < 16 <;>
    simp [execute_single, getReg, setReg, hx, hy, eq_comm, tick_registers, tick_memory, tick_i, tick_screen, tick_stack, tick_sp, tick_pc, tick_delay, tick_sound]

theorem exec_BitwiseOr (env : Env) (s s' : Chip8) (x y : Nat) :
    execute_single env (.BitwiseOr x y) s = some s' ↔
      x < 16 ∧
      y < 16 ∧
      s' = { tick s with registers := updf s.registers x (s.registers x ||| s.registers y) } := by
  by_cases hx : x < 16 <;> by_cases hy : y < 16 <;>
    simp [execute_single, getReg, setReg, hx, hy, eq_comm, tick_registers, tick_memory, tick_i, tick_screen, tick_stack, tick_sp, tick_pc, tick_delay, tick_sound]

theorem exec_BitwiseAnd (env : Env) (s s' : Chip8) (x y : Nat) :
    execute_single env (.BitwiseAnd x y) s = some s' ↔
      x < 16 ∧
      y < 16 ∧
      s' = { tick s with registers := updf s.registers x (s.registers x &&& s.registers y) } := by
  by_cases hx : x < 16 <;> by_cases hy : y < 16 <;>
    simp [execute_single, getReg, setReg, hx, hy, eq_comm, tick_registers, tick_memory, tick_i, tick_screen, tick_stack, tick_sp, tick_pc, tick_delay, tick_sound]

theorem exec_BitwiseXor (env : Env) (s s' : Chip8) (x y : Nat) :
    execute_single env (.BitwiseXor x y) s = some s' ↔
      x < 16 ∧
      y < 16 ∧
      s' = { tick s with registers := updf s.registers x (s.registers x ^^^ s.registers y) } := by
  by_cases hx : x < 16 <;> by_cases hy : y < 16 <;>
    simp [execute_single, getReg, setReg, hx, hy, eq_comm, tick_registers, tick_memory, tick_i, tick_screen, tick_stack, tick_sp, tick_pc, tick_delay, tick_sound]

theorem exec_IncRegByReg (env : Env) (s s' : Chip8) (x y : Nat) :
    execute_single env (.IncRegByReg x y) s = some s' ↔
      x < 16 ∧
      y < 16 ∧
      s' = { tick s with registers := (updf (updf s.registers x ((s.registers x + s.registers y) % 256)) 0xF (if 255 < s.registers x + s.registers y then 1 else 0)) } := by
  by_cases hx : x < 16 <;> by_cases hy : y < 16 <;>
    simp [execute_single, getReg, setReg, hx, hy, eq_comm, tick_registers, tick_memory, tick_i, tick_screen, tick_stack, tick_sp, tick_pc, tick_delay, tick_sound]

theorem exec_DecRegByReg (env : Env) (s s' : Chip8) (x y : Nat) :
    execute_single env (.DecRegByReg x y) s = some s' ↔
      x < 16 ∧
      y < 16 ∧
      s' = { tick s with registers := (updf (updf s.registers x ((s.registers x + 256 - s.registers y) % 256)) 0xF (if s.registers x < s.registers y then 0 else 1)) } := by
  by_cases hx : x < 16 <;> by_cases hy : y < 16 <;>
    simp [execute_single, getReg, setReg, hx, hy, eq_comm, tick_registers, tick_memory, tick_i, tick_screen, tick_stack, tick_sp, tick_pc, tick_delay, tick_sound]

theorem exec_BitshiftRight (env : Env) (s s' : Chip8) (x : Nat) :
    execute_single env (.BitshiftRight x) s = some s' ↔
      x < 16 ∧
      s' = { tick s with registers := (updf (updf s.registers 0xF (s.registers x &&& 1)) x ((updf s.registers 0xF (s.registers x &&& 1) x) >>> 1)) } := by
  by_cases hx : x < 16 <;>
    simp [execute_single, getReg, setReg, hx, eq_comm, tick_registers, tick_memory, tick_i, tick_screen, tick_stack, tick_sp, tick_pc, tick_delay, tick_sound]

theorem exec_SetVxVyMinusVx (env : Env) (s s' : Chip8) (x y : Nat) :
    execute_single env (.SetVxVyMinusVx x y) s = some s' ↔
      x < 16 ∧
      y < 16 ∧
      s' = { tick s with registers := (updf (updf s.registers x ((s.registers y + 256 - s.registers x) % 256)) 0xF (if s.registers y < s.registers x then 0 else 1)) } := by
  by_cases hx : x < 16 <;> by_cases hy : y < 16 <;>
    simp [execute_single, getReg, setReg, hx, hy, eq_comm, tick_registers, tick_memory, tick_i, tick_screen, tick_stack, tick_sp, tick_pc, tick_delay, tick_sound]

theorem exec_BitshiftLeft (env : Env) (s s' : Chip8) (x : Nat) :
    execute_single env (.BitshiftLeft x) s = some s' ↔
      x < 16 ∧
      s' = { tick s with registers := (updf (updf s.registers 0xF ((s.registers x &&& 0b10000000) >>> 7)) x (((updf s.registers 0xF ((s.registers x &&& 0b10000000) >>> 7) x) <<< 1) % 256)) } := by
  by_cases hx : x < 16 <;>
    simp [execute_single, getReg, setReg, hx, eq_comm, tick_registers, tick_memory, tick_i, tick_screen, tick_stack, tick_sp, tick_pc, tick_delay, tick_sound]

theorem exec_IfRegNeqReg (env : Env) (s s' : Chip8) (x y : Nat) :
    execute_single env (.IfRegNeqReg x y) s = some s' ↔
      x < 16 ∧
      y < 16 ∧
      s' = (if s.registers x ≠ s.registers y then skip2 (tick s) else tick s) := by
  by_cases hx : x < 16 <;> by_cases hy : y < 16 <;>
    simp [execute_single, getReg, setReg, hx, hy, eq_comm, tick_registers, tick_memory, tick_i, tick_screen, tick_stack, tick_sp, tick_pc, tick_delay, tick_sound]

theorem exec_SetI (env : Env) (s s' : Chip8) (addr : Nat) :
    execute_single env (.SetI addr) s = some s' ↔
      s' = { tick s with i := addr } := by
  simp [execute_single, getReg, setReg, eq_comm, tick_registers, tick_memory, tick_i, tick_screen, tick_stack, tick_sp, tick_pc, tick_delay, tick_sound]

theorem exec_SetPcToV0PlusAddr (env : Env) (s s' : Chip8) (addr : Nat) :
    execute_single env (.SetPcToV0PlusAddr addr) s = some s' ↔
      s' = { tick s with program_counter := (s.registers 0 + addr) % 65536 } := by
  simp [execute_single, getReg, setReg, eq_comm, tick_registers, tick_memory, tick_i, tick_screen, tick_stack, tick_sp, tick_pc, tick_delay, tick_sound]

theorem exec_SetVxRand (env : Env) (s s' : Chip8) (x n : Nat) :
    execute_single env (.SetVxRand x n) s = some s' ↔
      x < 16 ∧
      s' = { tick s with registers := updf s.registers x (env.rand &&& n) } := by
  by_cases hx : x < 16 <;>
    simp [execute_single, getReg, setReg, hx, eq_comm, tick_registers, tick_memory, tick_i, tick_screen, tick_stack, tick_sp, tick_pc, tick_delay, tick_sound]

theorem exec_Draw (env : Env) (s s' : Chip8) (x y n : Nat) :
    execute_single env (.Draw x y n) s = some s' ↔
      x < 16 ∧
      y < 16 ∧
      s.i + n ≤ 4096 ∧
      s' = { tick s with screen := (drawSprite s.memory s.i (s.registers x) (s.registers y) n s.screen).1, registers := (updf s.registers 0xF (drawSprite s.memory s.i (s.registers x) (s.registers y) n s.screen).2) } := by
  by_cases hx : x < 16 <;> by_cases hy : y < 16 <;> by_cases hn : s.i + n ≤ 4096 <;>
    simp [execute_single, getReg, setReg, hx, hy, hn, eq_comm, tick_registers, tick_memory, tick_i, tick_screen, tick_stack, tick_sp, tick_pc, tick_delay, tick_sound]

theorem exec_IfKeyEqVx (env : Env) (s s' : Chip8) (x : Nat) :
    execute_single env (.IfKeyEqVx x) s = some s' ↔
      x < 16 ∧
      s' = (if env.key = some (s.registers x) then skip2 (tick s) else tick s) := by
  by_cases hx : x < 16 <;>
    simp [execute_single, getReg, setReg, hx, eq_comm, tick_registers, tick_memory, tick_i, tick_screen, tick_stack, tick_sp, tick_pc, tick_delay, tick_sound]

theorem exec_IfKeyNeqVx (env : Env) (s s' : Chip8) (x : Nat) :
    execute_single env (.IfKeyNeqVx x) s = some s' ↔
      x < 16 ∧
      s' = (if env.key ≠ some (s.registers x) then skip2 (tick s) else tick s) := by
  by_cases hx : x < 16 <;>
    simp [execute_single, getReg, setReg, hx, eq_comm, tick_registers, tick_memory, tick_i, tick_screen, tick_stack, tick_sp, tick_pc, tick_delay, tick_sound]

theorem exec_SetRegToDelayTimer (env : Env) (s s' : Chip8) (x : Nat) :
    execute_single env (.SetRegToDelayTimer x) s = some s' ↔
      x < 16 ∧
      s' = { tick s with registers := (updf s.registers x (if 0 < s.delay_timer then s.delay_timer - 1 else s.delay_timer)) } := by
  by_cases hx : x < 16 <;>
    simp [execute_single, getReg, setReg, hx, eq_comm, tick_registers, tick_memory, tick_i, tick_screen, tick_stack, tick_sp, tick_pc, tick_delay, tick_sound]

theorem exec_SetRegToGetKey (env : Env) (s s' : Chip8) (x : Nat) :
    execute_single env (.SetRegToGetKey x) s = some s' ↔
      x < 16 ∧
      s' = { tick s with registers := updf s.registers x env.blocking_key } := by
  by_cases hx : x < 16 <;>
    simp [execute_single, getReg, setReg, hx, eq_comm, tick_registers, tick_memory, tick_i, tick_screen, tick_stack, tick_sp, tick_pc, tick_delay, tick_sound]

theorem exec_SetDelayTimerToReg (env : Env) (s s' : Chip8) (x : Nat) :
    execute_single env (.SetDelayTimerToReg x) s = some s' ↔
      x < 16 ∧
      s' = { tick s with delay_timer := s.registers x } := by
  by_cases hx : x < 16 <;>
    simp [execute_single, getReg, setReg, hx, eq_comm, tick_registers, tick_memory, tick_i, tick_screen, tick_stack, tick_sp, tick_pc, tick_delay, tick_sound]

theorem exec_SetSoundTimerToReg (env : Env) (s s' : Chip8) (x : Nat) :
    execute_single env (.SetSoundTimerToReg x) s = some s' ↔
      x < 16 ∧
      s' = { tick s with sound_timer := s.registers x } := by
  by_cases hx : x < 16 <;>
    simp [execute_single, getReg, setReg, hx, eq_comm, tick_registers, tick_memory, tick_i, tick_screen, tick_stack, tick_sp, tick_pc, tick_delay, tick_sound]

theorem exec_AddRegToI (env : Env) (s s' : Chip8) (x : Nat) :
    execute_single env (.AddRegToI x) s = some s' ↔
      x < 16 ∧
      s' = { tick s with i := (s.i + s.registers x) % 65536 } := by
  by_cases hx : x < 16 <;>
    simp [execute_single, getReg, setReg, hx, eq_comm, tick_registers, tick_memory, tick_i, tick_screen, tick_stack, tick_sp, tick_pc, tick_delay, tick_sound]

theorem exec_SetIToSpriteAddrVx (env : Env) (s s' : Chip8) (x : Nat) :
    execute_single env (.SetIToSpriteAddrVx x) s = some s' ↔
      x < 16 ∧
      s' = { tick s with i := (5 * s.registers x) % 65536 } := by
  by_cases hx : x < 16 <;>
    simp [execute_single, getReg, setReg, hx, eq_comm, tick_registers, tick_memory, tick_i, tick_screen, tick_stack, tick_sp, tick_pc, tick_delay, tick_sound]

theorem exec_SetIToBcdOfReg (env : Env) (s s' : Chip8) (x : Nat) :
    execute_single env (.SetIToBcdOfReg x) s = some s' ↔
      x < 16 ∧
      s.i + 2 < 4096 ∧
      s' = { tick s with memory := fun a => if a = s.i + 2 then s.registers x % 10 else if a = s.i + 1 then s.registers x / 10 % 10 else if a = s.i then s.registers x / 10 / 10 % 10 else s.memory a } := by
  by_cases hx : x < 16 <;> by_cases hb : s.i + 2 < 4096 <;>
    simp [execute_single, getReg, setReg, hx, hb, eq_comm, tick_registers, tick_memory, tick_i, tick_screen, tick_stack, tick_sp, tick_pc, tick_delay, tick_sound]

theorem exec_RegDump (env : Env) (s s' : Chip8) (x : Nat) :
    execute_single env (.RegDump x) s = some s' ↔
      x < 16 ∧
      s.i + x < 4096 ∧
      s' = { tick s with memory := fun a => if s.i ≤ a ∧ a ≤ s.i + x then s.registers (a - s.i) else s.memory a } := by
  by_cases hx : x < 16 <;> by_cases hi : s.i + x < 4096 <;>
    simp [execute_single, getReg, setReg, hx, hi, eq_comm, tick_registers, tick_memory, tick_i, tick_screen, tick_stack, tick_sp, tick_pc, tick_delay, tick_sound]

theorem exec_RegLoad (env : Env) (s s' : Chip8) (x : Nat) :
    execute_single env (.RegLoad x) s = some s' ↔
      x < 16 ∧
      s.i + x < 4096 ∧
      s' = { tick s with registers := fun j => if j ≤ x then s.memory (s.i + j) else s.registers j } := by
  by_cases hx : x < 16 <;> by_cases hi : s.i + x < 4096 <;>
    simp [execute_single, getReg, setReg, hx, hi, eq_comm, tick_registers, tick_memory, tick_i, tick_screen, tick_stack, tick_sp, tick_pc, tick_delay, tick_sound]


end ExecHelpers

section ArithTheorems

/-- C2: for register values `a`, `b` below 256 held in distinct registers
`Vx`, `Vy` with `x, y ≠ 0xF`, AddReg (`Vx += Vy`) leaves
`Vx = (a + b) % 256` and `VF = 1` exactly when `a + b > 255`. -/
theorem addreg_flag_law (env : Env) (s : Chip8) (a b x y : Nat)
    (hx : x < 16) (hy : y < 16) (hxy : x ≠ y) (hxF : x ≠ 0xF) (hyF : y ≠ 0xF)
    (ha : a < 256) (hb : b < 256)
    (hva : s.registers x = a) (hvb : s.registers y = b) :
    ∃ s', execute_single env (.IncRegByReg x y) s = some s' ∧
      s'.registers x = (a + b) % 256 ∧
      s'.registers 0xF = (if 255 < a + b then 1 else 0) := by
  have h15 : (0xF : Nat) < 16 := by norm_num
  refine ⟨{ tick s with registers :=
      (updf (updf s.registers x ((a + b) % 256)) 0xF
        (if 255 < a + b then 1 else 0)) }, ?_, ?_, ?_⟩
  · unfold execute_single
    dsimp only
    rw [getReg_pos hx, tick_registers, hva]
    simp only [Option.bind_eq_bind, Option.some_bind]
    rw [getReg_pos hy, tick_registers, hvb]
    simp only [Option.bind_eq_bind, Option.some_bind]
    rw [setReg_pos hx]
    simp only [Option.bind_eq_bind, Option.some_bind]
    rw [setReg_pos h15]
    rfl
  · simp only [updf_other _ _ _ _ hxF, updf_self]
  · simp only [updf_self]

end ArithTheorems

section ArithWitness

/-- Witness for C2: with `V10 = 75` and `V11 = 240`, AddReg leaves
`V10 = 315 % 256 = 59` and `VF = 1` since `315 > 255`. -/
theorem addreg_flag_law_witness :
    ∃ s', execute_single env0 (.IncRegByReg 10 11)
        { initState with registers := updf (updf initState.registers 10 75) 11 240 }
        = some s' ∧
      s'.registers 10 = (75 + 240) % 256 ∧
      s'.registers 0xF = (if 255 < 75 + 240 then 1 else 0) :=
  addreg_flag_law env0
    { initState with registers := updf (updf initState.registers 10 75) 11 240 }
    75 240 10 11 (by decide) (by decide) (by decide) (by decide) (by decide)
    (by decide) (by decide) (by decide) (by decide)

end ArithWitness

section TimerTheorems

/-- C7: every `execute_single` call first decrements each timer by exactly
1 when positive (flooring at 0, never wrapping), regardless of the
instruction; the decrement precedes the instruction effect, so
`SetRegToDelayTimer` stores the post-decrement delay value, while
`SetDelayTimerToReg`/`SetSoundTimerToReg` overwrite the decremented timer
with the register value. -/
theorem timer_law (env : Env) (i : Instruction) (s s' : Chip8)
    (h : execute_single env i s = some s') :
    ((∀ x, i ≠ .SetDelayTimerToReg x) →
        s'.delay_timer = (if 0 < s.delay_timer then s.delay_timer - 1 else s.delay_timer)) ∧
    ((∀ x, i ≠ .SetSoundTimerToReg x) →
        s'.sound_timer = (if 0 < s.sound_timer then s.sound_timer - 1 else s.sound_timer)) ∧
    (∀ x, i = .SetDelayTimerToReg x → s'.delay_timer = s.registers x) ∧
    (∀ x, i = .SetSoundTimerToReg x → s'.sound_timer = s.registers x) ∧
    (∀ x, i = .SetRegToDelayTimer x →
        s'.registers x = (if 0 < s.delay_timer then s.delay_timer - 1 else s.delay_timer)) := by
  cases i
  case ClearScreen =>
    rw [exec_ClearScreen] at h
    subst h
    refine ⟨fun _ => ?_, fun _ => ?_, fun x' hx' => by simp at hx',
      fun x' hx' => by simp at hx', fun x' hx' => by simp at hx'⟩ <;>
    first
      | rfl
      | (simp only [apply_ite Chip8.delay_timer, apply_ite Chip8.sound_timer,
          skip2_delay, skip2_sound, tick_delay, tick_sound, ite_self])
  case Return =>
    rw [exec_Return] at h
    subst h
    refine ⟨fun _ => ?_, fun _ => ?_, fun x' hx' => by simp at hx',
      fun x' hx' => by simp at hx', fun x' hx' => by simp at hx'⟩ <;>
    first
      | rfl
      | (simp only [apply_ite Chip8.delay_timer, apply_ite Chip8.sound_timer,
          skip2_delay, skip2_sound, tick_delay, tick_sound, ite_self])
  case Goto addr =>
    rw [exec_Goto] at h
    subst h
    refine ⟨fun _ => ?_, fun _ => ?_, fun x' hx' => by simp at hx',
      fun x' hx' => by simp at hx', fun x' hx' => by simp at hx'⟩ <;>
    first
      | rfl
      | (simp only [apply_ite Chip8.delay_timer, apply_ite Chip8.sound_timer,
          skip2_delay, skip2_sound, tick_delay, tick_sound, ite_self])
  case Call addr =>
    rw [exec_Call] at h
    subst h
    refine ⟨fun _ => ?_, fun _ => ?_, fun x' hx' => by simp at hx',
      fun x' hx' => by simp at hx', fun x' hx' => by simp at hx'⟩ <;>
    first
      | rfl
      | (simp only [apply_ite Chip8.delay_timer, apply_ite Chip8.sound_timer,
          skip2_delay, skip2_sound, tick_delay, tick_sound, ite_self])
  case IfRegEqConst x n =>
    rw [exec_IfRegEqConst] at h
    obtain ⟨_, rfl⟩ := h
    refine ⟨fun _ => ?_, fun _ => ?_, fun x' hx' => by simp at hx',
      fun x' hx' => by simp at hx', fun x' hx' => by simp at hx'⟩ <;>
    first
      | rfl
      | (simp only [apply_ite Chip8.delay_timer, apply_ite Chip8.sound_timer,
          skip2_delay, skip2_sound, tick_delay, tick_sound, ite_self])
  case IfRegNeqConst x n =>
    rw [exec_IfRegNeqConst] at h
    obtain ⟨_, rfl⟩ := h
    refine ⟨fun _ => ?_, fun _ => ?_, fun x' hx' => by simp at hx',
      fun x' hx' => by simp at hx', fun x' hx' => by simp at hx'⟩ <;>
    first
      | rfl
      | (simp only [apply_ite Chip8.delay_timer, apply_ite Chip8.sound_timer,
          skip2_delay, skip2_sound, tick_delay, tick_sound, ite_self])
  case IfRegEqReg x y =>
    rw [exec_IfRegEqReg] at h
    obtain ⟨_, _, rfl⟩ := h
    refine ⟨fun _ => ?_, fun _ => ?_, fun x' hx' => by simp at hx',
      fun x' hx' => by simp at hx', fun x' hx' => by simp at hx'⟩ <;>
    first
      | rfl
      | (simp only [apply_ite Chip8.delay_timer, apply_ite Chip8.sound_timer,
          skip2_delay, skip2_sound, tick_delay, tick_sound, ite_self])
  case SetRegToConst x n =>
    rw [exec_SetRegToConst] at h
    obtain ⟨_, rfl⟩ := h
    refine ⟨fun _ => ?_, fun _ => ?_, fun x' hx' => by simp at hx',
      fun x' hx' => by simp at hx', fun x' hx' => by simp at hx'⟩ <;>
    first
      | rfl
      | (simp only [apply_ite Chip8.delay_timer, apply_ite Chip8.sound_timer,
          skip2_delay, skip2_sound, tick_delay, tick_sound, ite_self])
  case IncRegByConst x n =>
    rw [exec_IncRegByConst] at h
    obtain ⟨_, rfl⟩ := h
    refine ⟨fun _ => ?_, fun _ => ?_, fun x' hx' => by simp at hx',
      fun x' hx' => by simp at hx', fun x' hx' => by simp at hx'⟩ <;>
    first
      | rfl
      | (simp only [apply_ite Chip8.delay_timer, apply_ite Chip8.sound_timer,
          skip2_delay, skip2_sound, tick_delay, tick_sound, ite_self])
  case SetRegToReg x y =>
    rw [exec_SetRegToReg] at h
    obtain ⟨_, _, rfl⟩ := h
    refine ⟨fun _ => ?_, fun _ => ?_, fun x' hx' => by simp at hx',
      fun x' hx' => by simp at hx', fun x' hx' => by simp at hx'⟩ <;>
    first
      | rfl
      | (simp only [apply_ite Chip8.delay_timer, apply_ite Chip8.sound_timer,
          skip2_delay, skip2_sound, tick_delay, tick_sound, ite_self])
  case BitwiseOr x y =>
    rw [exec_BitwiseOr] at h
    obtain ⟨_, _, rfl⟩ := h
    refine ⟨fun _ => ?_, fun _ => ?_, fun x' hx' => by simp at hx',
      fun x' hx' => by simp at hx', fun x' hx' => by simp at hx'⟩ <;>
    first
      | rfl
      | (simp only [apply_ite Chip8.delay_timer, apply_ite Chip8.sound_timer,
          skip2_delay, skip2_sound, tick_delay, tick_sound, ite_self])
  case BitwiseAnd x y =>
    rw [exec_BitwiseAnd] at h
    obtain ⟨_, _, rfl⟩ := h
    refine ⟨fun _ => ?_, fun _ => ?_, fun x' hx' => by simp at hx',
      fun x' hx' => by simp at hx', fun x' hx' => by simp at hx'⟩ <;>
    first
      | rfl
      | (simp only [apply_ite Chip8.delay_timer, apply_ite Chip8.sound_timer,
          skip2_delay, skip2_sound, tick_delay, tick_sound, ite_self])
  case BitwiseXor x y =>
    rw [exec_BitwiseXor] at h
    obtain ⟨_, _, rfl⟩ := h
    refine ⟨fun _ => ?_, fun _ => ?_, fun x' hx' => by simp at hx',
      fun x' hx' => by simp at hx', fun x' hx' => by simp at hx'⟩ <;>
    first
      | rfl
      | (simp only [apply_ite Chip8.delay_timer, apply_ite Chip8.sound_timer,
          skip2_delay, skip2_sound, tick_delay, tick_sound, ite_self])
  case IncRegByReg x y =>
    rw [exec_IncRegByReg] at h
    obtain ⟨_, _, rfl⟩ := h
    refine ⟨fun _ => ?_, fun _ => ?_, fun x' hx' => by simp at hx',
      fun x' hx' => by simp at hx', fun x' hx' => by simp at hx'⟩ <;>
    first
      | rfl
      | (simp only [apply_ite Chip8.delay_timer, apply_ite Chip8.sound_timer,
          skip2_delay, skip2_sound, tick_delay, tick_sound, ite_self])
  case DecRegByReg x y =>
    rw [exec_DecRegByReg] at h
    obtain ⟨_, _, rfl⟩ := h
    refine ⟨fun _ => ?_, fun _ => ?_, fun x' hx' => by simp at hx',
      fun x' hx' => by simp at hx', fun x' hx' => by simp at hx'⟩ <;>
    first
      | rfl
      | (simp only [apply_ite Chip8.delay_timer, apply_ite Chip8.sound_timer,
          skip2_delay, skip2_sound, tick_delay, tick_sound, ite_self])
  case BitshiftRight x =>
    rw [exec_BitshiftRight] at h
    obtain ⟨_, rfl⟩ := h
    refine ⟨fun _ => ?_, fun _ => ?_, fun x' hx' => by simp at hx',
      fun x' hx' => by simp at hx', fun x' hx' => by simp at hx'⟩ <;>
    first
      | rfl
      | (simp only [apply_ite Chip8.delay_timer, apply_ite Chip8.sound_timer,
          skip2_delay, skip2_sound, tick_delay, tick_sound, ite_self])
  case SetVxVyMinusVx x y =>
    rw [exec_SetVxVyMinusVx] at h
    obtain ⟨_, _, rfl⟩ := h
    refine ⟨fun _ => ?_, fun _ => ?_, fun x' hx' => by simp at hx',
      fun x' hx' => by simp at hx', fun x' hx' => by simp at hx'⟩ <;>
    first
      | rfl
      | (simp only [apply_ite Chip8.delay_timer, apply_ite Chip8.sound_timer,
          skip2_delay, skip2_sound, tick_delay, tick_sound, ite_self])
  case BitshiftLeft x =>
    rw [exec_BitshiftLeft] at h
    obtain ⟨_, rfl⟩ := h
    refine ⟨fun _ => ?_, fun _ => ?_, fun x' hx' => by simp at hx',
      fun x' hx' => by simp at hx', fun x' hx' => by simp at hx'⟩ <;>
    first
      | rfl
      | (simp only [apply_ite Chip8.delay_timer, apply_ite Chip8.sound_timer,
          skip2_delay, skip2_sound, tick_delay, tick_sound, ite_self])
  case IfRegNeqReg x y =>
    rw [exec_IfRegNeqReg] at h
    obtain ⟨_, _, rfl⟩ := h
    refine ⟨fun _ => ?_, fun _ => ?_, fun x' hx' => by simp at hx',
      fun x' hx' => by simp at hx', fun x' hx' => by simp at hx'⟩ <;>
    first
      | rfl
      | (simp only [apply_ite Chip8.delay_timer, apply_ite Chip8.sound_timer,
          skip2_delay, skip2_sound, tick_delay, tick_sound, ite_self])
  case SetI addr =>
    rw [exec_SetI] at h
    subst h
    refine ⟨fun _ => ?_, fun _ => ?_, fun x' hx' => by simp at hx',
      fun x' hx' => by simp at hx', fun x' hx' => by simp at hx'⟩ <;>
    first
      | rfl
      | (simp only [apply_ite Chip8.delay_timer, apply_ite Chip8.sound_timer,
          skip2_delay, skip2_sound, tick_delay, tick_sound, ite_self])
  case SetPcToV0PlusAddr addr =>
    rw [exec_SetPcToV0PlusAddr] at h
    subst h
    refine ⟨fun _ => ?_, fun _ => ?_, fun x' hx' => by simp at hx',
      fun x' hx' => by simp at hx', fun x' hx' => by simp at hx'⟩ <;>
    first
      | rfl
      | (simp only [apply_ite Chip8.delay_timer, apply_ite Chip8.sound_timer,
          skip2_delay, skip2_sound, tick_delay, tick_sound, ite_self])
  case SetVxRand x n =>
    rw [exec_SetVxRand] at h
    obtain ⟨_, rfl⟩ := h
    refine ⟨fun _ => ?_, fun _ => ?_, fun x' hx' => by simp at hx',
      fun x' hx' => by simp at hx', fun x' hx' => by simp at hx'⟩ <;>
    first
      | rfl
      | (simp only [apply_ite Chip8.delay_timer, apply_ite Chip8.sound_timer,
          skip2_delay, skip2_sound, tick_delay, tick_sound, ite_self])
  case Draw x y n =>
    rw [exec_Draw] at h
    obtain ⟨_, _, _, rfl⟩ := h
    refine ⟨fun _ => ?_, fun _ => ?_, fun x' hx' => by simp at hx',
      fun x' hx' => by simp at hx', fun x' hx' => by simp at hx'⟩ <;>
    first
      | rfl
      | (simp only [apply_ite Chip8.delay_timer, apply_ite Chip8.sound_timer,
          skip2_delay, skip2_sound, tick_delay, tick_sound, ite_self])
  case IfKeyEqVx x =>
    rw [exec_IfKeyEqVx] at h
    obtain ⟨_, rfl⟩ := h
    refine ⟨fun _ => ?_, fun _ => ?_, fun x' hx' => by simp at hx',
      fun x' hx' => by simp at hx', fun x' hx' => by simp at hx'⟩ <;>
    first
      | rfl
      | (simp only [apply_ite Chip8.delay_timer, apply_ite Chip8.sound_timer,
          skip2_delay, skip2_sound, tick_delay, tick_sound, ite_self])
  case IfKeyNeqVx x =>
    rw [exec_IfKeyNeqVx] at h
    obtain ⟨_, rfl⟩ := h
    refine ⟨fun _ => ?_, fun _ => ?_, fun x' hx' => by simp at hx',
      fun x' hx' => by simp at hx', fun x' hx' => by simp at hx'⟩ <;>
    first
      | rfl
      | (simp only [apply_ite Chip8.delay_timer, apply_ite Chip8.sound_timer,
          skip2_delay, skip2_sound, tick_delay, tick_sound, ite_self])
  case SetRegToDelayTimer x =>
    rw [exec_SetRegToDelayTimer] at h
    obtain ⟨_, rfl⟩ := h
    refine ⟨fun _ => rfl, fun _ => rfl, fun x' hx' => by simp at hx',
      fun x' hx' => by simp at hx', ?_⟩
    intro x' hx'
    cases hx'
    exact updf_self _ _ _
  case SetRegToGetKey x =>
    rw [exec_SetRegToGetKey] at h
    obtain ⟨_, rfl⟩ := h
    refine ⟨fun _ => ?_, fun _ => ?_, fun x' hx' => by simp at hx',
      fun x' hx' => by simp at hx', fun x' hx' => by simp at hx'⟩ <;>
    first
      | rfl
      | (simp only [apply_ite Chip8.delay_timer, apply_ite Chip8.sound_timer,
          skip2_delay, skip2_sound, tick_delay, tick_sound, ite_self])
  case SetDelayTimerToReg x =>
    rw [exec_SetDelayTimerToReg] at h
    obtain ⟨_, rfl⟩ := h
    refine ⟨fun hne => absurd rfl (hne x), fun _ => rfl, ?_,
      fun x' hx' => by simp at hx', fun x' hx' => by simp at hx'⟩
    intro x' hx'
    cases hx'
    rfl
  case SetSoundTimerToReg x =>
    rw [exec_SetSoundTimerToReg] at h
    obtain ⟨_, rfl⟩ := h
    refine ⟨fun _ => rfl, fun hne => absurd rfl (hne x),
      fun x' hx' => by simp at hx', ?_, fun x' hx' => by simp at hx'⟩
    intro x' hx'
    cases hx'
    rfl
  case AddRegToI x =>
    rw [exec_AddRegToI] at h
    obtain ⟨_, rfl⟩ := h
    refine ⟨fun _ => ?_, fun _ => ?_, fun x' hx' => by simp at hx',
      fun x' hx' => by simp at hx', fun x' hx' => by simp at hx'⟩ <;>
    first
      | rfl
      | (simp only [apply_ite Chip8.delay_timer, apply_ite Chip8.sound_timer,
          skip2_delay, skip2_sound, tick_delay, tick_sound, ite_self])
  case SetIToSpriteAddrVx x =>
    rw [exec_SetIToSpriteAddrVx] at h
    obtain ⟨_, rfl⟩ := h
    refine ⟨fun _ => ?_, fun _ => ?_, fun x' hx' => by simp at hx',
      fun x' hx' => by simp at hx', fun x' hx' => by simp at hx'⟩ <;>
    first
      | rfl
      | (simp only [apply_ite Chip8.delay_timer, apply_ite Chip8.sound_timer,
          skip2_delay, skip2_sound, tick_delay, tick_sound, ite_self])
  case SetIToBcdOfReg x =>
    rw [exec_SetIToBcdOfReg] at h
    obtain ⟨_, _, rfl⟩ := h
    refine ⟨fun _ => ?_, fun _ => ?_, fun x' hx' => by simp at hx',
      fun x' hx' => by simp at hx', fun x' hx' => by simp at hx'⟩ <;>
    first
      | rfl
      | (simp only [apply_ite Chip8.delay_timer, apply_ite Chip8.sound_timer,
          skip2_delay, skip2_sound, tick_delay, tick_sound, ite_self])
  case RegDump x =>
    rw [exec_RegDump] at h
    obtain ⟨_, _, rfl⟩ := h
    refine ⟨fun _ => ?_, fun _ => ?_, fun x' hx' => by simp at hx',
      fun x' hx' => by simp at hx', fun x' hx' => by simp at hx'⟩ <;>
    first
      | rfl
      | (simp only [apply_ite Chip8.delay_timer, apply_ite Chip8.sound_timer,
          skip2_delay, skip2_sound, tick_delay, tick_sound, ite_self])
  case RegLoad x =>
    rw [exec_RegLoad] at h
    obtain ⟨_, _, rfl⟩ := h
    refine ⟨fun _ => ?_, fun _ => ?_, fun x' hx' => by simp at hx',
      fun x' hx' => by simp at hx', fun x' hx' => by simp at hx'⟩ <;>
    first
      | rfl
      | (simp only [apply_ite Chip8.delay_timer, apply_ite Chip8.sound_timer,
          skip2_delay, skip2_sound, tick_delay, tick_sound, ite_self])

end TimerTheorems

section TimerWitness

/-- Witness for C7: a `ClearScreen` step from timers `(5, 1)` yields
timers `(4, 0)`. -/
theorem timer_law_witness :
    ∃ s', execute_single env0 .ClearScreen
        { initState with delay_timer := 5, sound_timer := 1 } = some s' ∧
      s'.delay_timer = 4 ∧ s'.sound_timer = 0 := by
  obtain ⟨s', hs⟩ : ∃ s', execute_single env0 .ClearScreen
      { initState with delay_timer := 5, sound_timer := 1 } = some s' := ⟨_, rfl⟩
  have ht := timer_law env0 .ClearScreen _ s' hs
  refine ⟨s', hs, ?_, ?_⟩
  · rw [ht.1 (fun x => by simp)]
    simp
  · rw [ht.2.1 (fun x => by simp)]
    simp

end TimerWitness

section FlagTheorems

/-- C1 (amended): for AddReg, SubReg, SubReg-reversed and Draw the flag
assignment to `VF` is the last write of the instruction's effect, so `VF`
afterwards equals the defined flag value for every starting state,
including `x = 0xF`.  For ShiftRight/ShiftLeft the flag is written *before*
the shifted result, so `VF` equals the flag only when `x ≠ 0xF`; when
`x = 0xF` the result write lands on `VF` and overwrites the flag
(ShiftRight leaves `VF = 0`, ShiftLeft leaves `VF` equal to twice the
flag bit). -/
theorem flag_last_write (env : Env) (s : Chip8) (x y : Nat) :
    (∀ s', execute_single env (.IncRegByReg x y) s = some s' →
        s'.registers 0xF = (if 255 < s.registers x + s.registers y then 1 else 0)) ∧
    (∀ s', execute_single env (.DecRegByReg x y) s = some s' →
        s'.registers 0xF = (if s.registers x < s.registers y then 0 else 1)) ∧
    (∀ s', execute_single env (.SetVxVyMinusVx x y) s = some s' →
        s'.registers 0xF = (if s.registers y < s.registers x then 0 else 1)) ∧
    (∀ n s', execute_single env (.Draw x y n) s = some s' →
        s'.registers 0xF =
          (drawSprite s.memory s.i (s.registers x) (s.registers y) n s.screen).2) ∧
    (x ≠ 0xF → ∀ s', execute_single env (.BitshiftRight x) s = some s' →
        s'.registers 0xF = s.registers x &&& 1) ∧
    (∀ s', execute_single env (.BitshiftRight 0xF) s = some s' →
        s'.registers 0xF = 0) ∧
    (x ≠ 0xF → ∀ s', execute_single env (.BitshiftLeft x) s = some s' →
        s'.registers 0xF = (s.registers x &&& 0b10000000) >>> 7) ∧
    (∀ s', execute_single env (.BitshiftLeft 0xF) s = some s' →
        s'.registers 0xF = ((s.registers 0xF &&& 0b10000000) >>> 7) * 2) := by
  refine ⟨?_, ?_, ?_, ?_, ?_, ?_, ?_, ?_⟩
  · intro s' h
    rw [exec_IncRegByReg] at h
    obtain ⟨hx, hy, rfl⟩ := h
    dsimp only
    exact updf_self _ _ _
  · intro s' h
    rw [exec_DecRegByReg] at h
    obtain ⟨hx, hy, rfl⟩ := h
    dsimp only
    exact updf_self _ _ _
  · intro s' h
    rw [exec_SetVxVyMinusVx] at h
    obtain ⟨hx, hy, rfl⟩ := h
    dsimp only
    exact updf_self _ _ _
  · intro n s' h
    rw [exec_Draw] at h
    obtain ⟨hx, hy, hn, rfl⟩ := h
    dsimp only
    exact updf_self _ _ _
  · intro hxF s' h
    rw [exec_BitshiftRight] at h
    obtain ⟨hx, rfl⟩ := h
    show updf (updf s.registers 0xF (s.registers x &&& 1)) x _ 0xF = _
    rw [updf_other _ _ _ _ (Ne.symm hxF), updf_self]
  · intro s' h
    rw [exec_BitshiftRight] at h
    obtain ⟨hx, rfl⟩ := h
    dsimp only
    rw [updf_self, updf_self, Nat.and_one_is_mod, Nat.shiftRight_eq_div_pow]
    omega
  · intro hxF s' h
    rw [exec_BitshiftLeft] at h
    obtain ⟨hx, rfl⟩ := h
    show updf (updf s.registers 0xF ((s.registers x &&& 0b10000000) >>> 7)) x _ 0xF = _
    rw [updf_other _ _ _ _ (Ne.symm hxF), updf_self]
  · intro s' h
    rw [exec_BitshiftLeft] at h
    obtain ⟨hx, rfl⟩ := h
    dsimp only
    rw [updf_self, updf_self]
    have hb : s.registers 0xF &&& 0b10000000 ≤ 0b10000000 := Nat.and_le_right
    rw [Nat.shiftRight_eq_div_pow, Nat.shiftLeft_eq]
    norm_num
    omega

/-- Counterexample for C1 as stated: `ShiftRight` with `x = 0xF` on a state
with `VF = 1` leaves `VF = 0`, while the defined shift-out flag (bit 0 of
the pre-shift `VF`) is `1`: the flag assignment is not the last write. -/
theorem flag_last_write_cex :
    (execute_single env0 (.BitshiftRight 0xF)
        { initState with registers := updf initState.registers 0xF 1 }).map
      (fun s => s.registers 0xF) = some 0 ∧
    ({ initState with registers := updf initState.registers 0xF 1 } : Chip8).registers 0xF
        &&& 1 = 1 ∧
    (0 : Nat) ≠ 1 := by
  refine ⟨rfl, rfl, by omega⟩

/-- Witness for C1 (amended): AddReg on `V10 = 75`, `V11 = 240` sets
`VF = 1`, and ShiftRight on `V10 = 75` with `x ≠ 0xF` sets `VF` to bit 0
of 75, which is 1. -/
theorem flag_last_write_witness :
    ∃ s', execute_single env0 (.IncRegByReg 0xA 0xB)
        { initState with registers := updf (updf initState.registers 0xA 75) 0xB 240 }
        = some s' ∧ s'.registers 0xF = 1 := by
  obtain ⟨s', hs⟩ : ∃ s', execute_single env0 (.IncRegByReg 0xA 0xB)
      { initState with registers := updf (updf initState.registers 0xA 75) 0xB 240 }
      = some s' := ⟨_, rfl⟩
  refine ⟨s', hs, ?_⟩
  have := (flag_last_write env0
    { initState with registers := updf (updf initState.registers 0xA 75) 0xB 240 }
    0xA 0xB).1 s' hs
  rw [this]
  norm_num [updf, initState]

end FlagTheorems

section LoadTheorems

/-- C4 (code bug): `load` is meant to truncate over-long programs (it
computes `len = min(program.len(), memory.len() - 0x200)`), but it then
calls `copy_from_slice` with the *untruncated* program, which panics when
the program is longer than `memory_size - 0x200 = 3584` bytes.  A
3584-byte program loads, a 3585-byte program faults instead of being
silently truncated. -/
theorem load_truncation_bug :
    (load (List.replicate 3584 7) initState).isSome = true ∧
    load (List.replicate 3585 7) initState = none := by
  constructor
  · simp only [load, List.length_replicate]
    norm_num [initState]
  · simp only [load, List.length_replicate]
    norm_num [initState]

end LoadTheorems

section StepTheorems

/-- C9: the fetch in `step` indexes memory at `PC` and `PC + 1` with no
bounds check beyond the array's own: every state with `PC ≤ 0xFFE`
fetches in range, every state with `PC ≥ 0xFFF` faults in `step`, and such
states are reachable: from a fresh machine, `SetRegToConst V0 0xFF`
followed by `JumpV0 0xFFF` leaves `PC = 0x10FE ≥ 0xFFF`, and `step` then
faults. -/
theorem step_fetch_bounds (env : Env) :
    (∀ s : Chip8, s.program_counter ≤ 0xFFE → (fetch s).isSome = true) ∧
    (∀ s : Chip8, 0xFFF ≤ s.program_counter → step env s = none) ∧
    (∃ s', execute_many env0
        [.SetRegToConst 0 0xFF, .SetPcToV0PlusAddr 0xFFF] initState = some s' ∧
      0xFFF ≤ s'.program_counter ∧ step env0 s' = none) := by
  refine ⟨fun s h => ?_, fun s h => ?_, ⟨_, rfl, by decide, rfl⟩⟩
  · simp [fetch, show s.program_counter + 1 < 4096 by omega]
  · simp [step, fetch, show ¬(s.program_counter + 1 < 4096) by omega]

/-- Witness for C9: the fresh machine (PC = 0x200) fetches in range, and a
state with `PC = 0xFFF` makes `step` fault. -/
theorem step_fetch_bounds_witness :
    (fetch initState).isSome = true ∧
    step env0 { initState with program_counter := 0xFFF } = none :=
  ⟨(step_fetch_bounds env0).1 initState (by decide),
   (step_fetch_bounds env0).2.1 { initState with program_counter := 0xFFF } (by decide)⟩

end StepTheorems

section DrawLemmas

theorem setPixel_same (sc : Screen) (a b v : Nat) : setPixel sc a b v a b = v := by
  simp [setPixel]

theorem setPixel_other (sc : Screen) (a b v p q : Nat) (h : ¬(p = a ∧ q = b)) :
    setPixel sc a b v p q = sc p q := by
  simp only [setPixel, if_neg h]

theorem cells_screen (row xc y : Nat) :
    ∀ (ws : List Nat), ws.Nodup →
      ∀ (acc : Screen × Nat) (p q : Nat),
        ((ws.foldl (drawCell row xc y) acc).1) p q =
          (if q = y ∧ ∃ w ∈ ws, p = xc + w
           then acc.1 p q ^^^ ((row >>> (7 - (p - xc))) &&& 1)
           else acc.1 p q) := by
  intro ws
  induction ws with
  | nil => intro _ acc p q; simp
  | cons w ws ih =>
    intro hnd acc p q
    obtain ⟨hw, hnd'⟩ := List.nodup_cons.mp hnd
    rw [List.foldl_cons, ih hnd']
    by_cases hq : q = y
    · by_cases hpw : p = xc + w
      · have hfalse : ¬(q = y ∧ ∃ w' ∈ ws, p = xc + w') := by
          rintro ⟨-, w', hw', he⟩
          have hww : w = w' := by omega
          exact hw (hww ▸ hw')
        rw [if_neg hfalse, if_pos ⟨hq, w, List.mem_cons_self w ws, hpw⟩,
          show p - xc = w from by omega]
        dsimp only [drawCell]
        rw [hpw, hq]
        exact setPixel_same _ _ _ _
      · have hiff : (∃ w' ∈ w :: ws, p = xc + w') ↔ (∃ w' ∈ ws, p = xc + w') := by
          constructor
          · rintro ⟨w', hw', rfl⟩
            rcases List.mem_cons.mp hw' with h | h
            · exact (hpw (by rw [h])).elim
            · exact ⟨w', h, rfl⟩
          · rintro ⟨w', hw', rfl⟩
            exact ⟨w', List.mem_cons_of_mem _ hw', rfl⟩
        have hcell : (drawCell row xc y acc w).1 p q =
            acc.1 p q := setPixel_other _ _ _ _ _ _ (fun hc => hpw hc.1)
        rw [hcell]
        simp only [hiff]
    · have hcell : (drawCell row xc y acc w).1 p q =
          acc.1 p q := setPixel_other _ _ _ _ _ _ (fun hc => hq hc.2)
      rw [if_neg (fun hc => hq hc.1), if_neg (fun hc => hq hc.1), hcell]

theorem cells_coll (row xc y : Nat) :
    ∀ (ws : List Nat), ws.Nodup →
      ∀ (acc : Screen × Nat),
        (ws.foldl (drawCell row xc y) acc).2 =
          (if ∃ w ∈ ws, acc.1 (xc + w) y = 1 ∧
                acc.1 (xc + w) y ^^^ ((row >>> (7 - w)) &&& 1) = 0
           then 1 else acc.2) := by
  intro ws
  induction ws with
  | nil => intro _ acc; simp
  | cons w ws ih =>
    intro hnd acc
    obtain ⟨hw, hnd'⟩ := List.nodup_cons.mp hnd
    rw [List.foldl_cons, ih hnd']
    have hval : ∀ w' ∈ ws, (drawCell row xc y acc w).1 (xc + w') y = acc.1 (xc + w') y := by
      intro w' hw'
      refine setPixel_other _ _ _ _ _ _ ?_
      rintro ⟨hc, -⟩
      have hww : w' = w := by omega
      exact hw (hww ▸ hw')
    have hiff : (∃ w' ∈ ws, (drawCell row xc y acc w).1 (xc + w') y = 1 ∧
          (drawCell row xc y acc w).1 (xc + w') y ^^^ ((row >>> (7 - w')) &&& 1) = 0) ↔
        (∃ w' ∈ ws, acc.1 (xc + w') y = 1 ∧
          acc.1 (xc + w') y ^^^ ((row >>> (7 - w')) &&& 1) = 0) := by
      constructor
      · rintro ⟨w', hw', h1, h2⟩
        rw [hval w' hw'] at h1 h2
        exact ⟨w', hw', h1, h2⟩
      · rintro ⟨w', hw', h1, h2⟩
        refine ⟨w', hw', ?_, ?_⟩ <;> rw [hval w' hw'] <;> assumption
    simp only [hiff]
    have hhead : (drawCell row xc y acc w).2 =
        (if acc.1 (xc + w) y = 1 ∧
            acc.1 (xc + w) y ^^^ ((row >>> (7 - w)) &&& 1) = 0
         then 1 else acc.2) := rfl
    rw [hhead]
    by_cases h1 : ∃ w' ∈ ws, acc.1 (xc + w') y = 1 ∧
        acc.1 (xc + w') y ^^^ ((row >>> (7 - w')) &&& 1) = 0
    · rw [if_pos h1]
      obtain ⟨w', hw', hc⟩ := h1
      rw [if_pos ⟨w', List.mem_cons_of_mem _ hw', hc⟩]
    · rw [if_neg h1]
      by_cases h2 : acc.1 (xc + w) y = 1 ∧
          acc.1 (xc + w) y ^^^ ((row >>> (7 - w)) &&& 1) = 0
      · rw [if_pos h2, if_pos ⟨w, List.mem_cons_self w ws, h2⟩]
      · rw [if_neg h2, if_neg ?_]
        rintro ⟨w', hw', hc⟩
        rcases List.mem_cons.mp hw' with h | h
        · exact h2 (h ▸ hc)
        · exact h1 ⟨w', h, hc⟩

theorem drawRow_screen (row xc y : Nat) (acc : Screen × Nat) (p q : Nat) :
    (drawRow row xc y acc).1 p q =
      (if q = y ∧ xc ≤ p ∧ p < xc + 8
       then acc.1 p q ^^^ ((row >>> (7 - (p - xc))) &&& 1)
       else acc.1 p q) := by
  rw [drawRow, cells_screen row xc y (List.range 8) (List.nodup_range 8)]
  have hiff : (q = y ∧ ∃ w ∈ List.range 8, p = xc + w) ↔
      (q = y ∧ xc ≤ p ∧ p < xc + 8) := by
    constructor
    · rintro ⟨hq, w, hw, rfl⟩
      have := List.mem_range.mp hw
      exact ⟨hq, by omega, by omega⟩
    · rintro ⟨hq, h1, h2⟩
      exact ⟨hq, p - xc, List.mem_range.mpr (by omega), by omega⟩
  simp only [hiff]

theorem drawRow_coll (row xc y : Nat) (acc : Screen × Nat) :
    (drawRow row xc y acc).2 =
      (if ∃ w ∈ List.range 8, acc.1 (xc + w) y = 1 ∧
            acc.1 (xc + w) y ^^^ ((row >>> (7 - w)) &&& 1) = 0
       then 1 else acc.2) :=
  cells_coll row xc y (List.range 8) (List.nodup_range 8) acc

theorem rows_screen (m : Nat → Nat) (addr xc yc : Nat) :
    ∀ (hs : List Nat), hs.Nodup →
      ∀ (acc : Screen × Nat) (p q : Nat),
        ((hs.foldl (fun a h => drawRow (m (addr + h)) xc (yc + h) a) acc).1) p q =
          (if (∃ h ∈ hs, q = yc + h) ∧ xc ≤ p ∧ p < xc + 8
           then acc.1 p q ^^^ ((m (addr + (q - yc)) >>> (7 - (p - xc))) &&& 1)
           else acc.1 p q) := by
  intro hs
  induction hs with
  | nil => intro _ acc p q; simp
  | cons h hs ih =>
    intro hnd acc p q
    obtain ⟨hh, hnd'⟩ := List.nodup_cons.mp hnd
    rw [List.foldl_cons, ih hnd']
    by_cases hq : q = yc + h
    · have hnot : ¬∃ h' ∈ hs, q = yc + h' := by
        rintro ⟨h', hh', he⟩
        have : h = h' := by omega
        exact hh (this ▸ hh')
      rw [if_neg (fun hc => hnot hc.1)]
      by_cases hxb : xc ≤ p ∧ p < xc + 8
      · rw [if_pos ⟨⟨h, List.mem_cons_self h hs, hq⟩, hxb.1, hxb.2⟩,
          drawRow_screen, if_pos ⟨hq, hxb.1, hxb.2⟩,
          show q - yc = h from by omega]
      · rw [if_neg (fun hc => hxb ⟨hc.2.1, hc.2.2⟩),
          drawRow_screen, if_neg (fun hc => hxb ⟨hc.2.1, hc.2.2⟩)]
    · have hcell : (drawRow (m (addr + h)) xc (yc + h) acc).1 p q = acc.1 p q := by
        rw [drawRow_screen, if_neg (fun hc => hq hc.1)]
      rw [hcell]
      have hiff : (∃ h' ∈ h :: hs, q = yc + h') ↔ (∃ h' ∈ hs, q = yc + h') := by
        constructor
        · rintro ⟨h', hh', rfl⟩
          rcases List.mem_cons.mp hh' with he | he
          · exact (hq (by rw [he])).elim
          · exact ⟨h', he, rfl⟩
        · rintro ⟨h', hh', rfl⟩
          exact ⟨h', List.mem_cons_of_mem _ hh', rfl⟩
      simp only [hiff]

theorem rows_coll (m : Nat → Nat) (addr xc yc : Nat) :
    ∀ (hs : List Nat), hs.Nodup →
      ∀ (acc : Screen × Nat),
        ((hs.foldl (fun a h => drawRow (m (addr + h)) xc (yc + h) a) acc).2) =
          (if ∃ h ∈ hs, ∃ w ∈ List.range 8,
                acc.1 (xc + w) (yc + h) = 1 ∧
                acc.1 (xc + w) (yc + h) ^^^ ((m (addr + h) >>> (7 - w)) &&& 1) = 0
           then 1 else acc.2) := by
  intro hs
  induction hs with
  | nil => intro _ acc; simp
  | cons h hs ih =>
    intro hnd acc
    obtain ⟨hh, hnd'⟩ := List.nodup_cons.mp hnd
    rw [List.foldl_cons, ih hnd']
    have hval : ∀ h' ∈ hs, ∀ w : Nat,
        (drawRow (m (addr + h)) xc (yc + h) acc).1 (xc + w) (yc + h') =
          acc.1 (xc + w) (yc + h') := by
      intro h' hh' w
      rw [drawRow_screen]
      refine if_neg ?_
      rintro ⟨he, -⟩
      have : h = h' := by omega
      exact hh (this ▸ hh')
    have hiff : (∃ h' ∈ hs, ∃ w ∈ List.range 8,
          (drawRow (m (addr + h)) xc (yc + h) acc).1 (xc + w) (yc + h') = 1 ∧
          (drawRow (m (addr + h)) xc (yc + h) acc).1 (xc + w) (yc + h') ^^^
            ((m (addr + h') >>> (7 - w)) &&& 1) = 0) ↔
        (∃ h' ∈ hs, ∃ w ∈ List.range 8,
          acc.1 (xc + w) (yc + h') = 1 ∧
          acc.1 (xc + w) (yc + h') ^^^ ((m (addr + h') >>> (7 - w)) &&& 1) = 0) := by
      constructor
      · rintro ⟨h', hh', w, hw, h1, h2⟩
        rw [hval h' hh' w] at h1 h2
        exact ⟨h', hh', w, hw, h1, h2⟩
      · rintro ⟨h', hh', w, hw, h1, h2⟩
        refine ⟨h', hh', w, hw, ?_, ?_⟩ <;> rw [hval h' hh'] <;> assumption
    simp only [hiff]
    rw [drawRow_coll]
    by_cases h1 : ∃ h' ∈ hs, ∃ w ∈ List.range 8,
        acc.1 (xc + w) (yc + h') = 1 ∧
        acc.1 (xc + w) (yc + h') ^^^ ((m (addr + h') >>> (7 - w)) &&& 1) = 0
    · rw [if_pos h1]
      obtain ⟨h', hh', hc⟩ := h1
      rw [if_pos ⟨h', List.mem_cons_of_mem _ hh', hc⟩]
    · rw [if_neg h1]
      by_cases h2 : ∃ w ∈ List.range 8, acc.1 (xc + w) (yc + h) = 1 ∧
          acc.1 (xc + w) (yc + h) ^^^ ((m (addr + h) >>> (7 - w)) &&& 1) = 0
      · rw [if_pos h2, if_pos ⟨h, List.mem_cons_self h hs, h2⟩]
      · rw [if_neg h2, if_neg ?_]
        rintro ⟨h', hh', hc⟩
        rcases List.mem_cons.mp hh' with he | he
        · exact h2 (he ▸ hc)
        · exact h1 ⟨h', he, hc⟩

/-- Pointwise effect of the full `Draw` blit: cells in the 8-wide,
`n`-tall region are XORed with their sprite bit, all other cells are
untouched. -/
theorem drawSprite_screen (m : Nat → Nat) (addr xc yc n : Nat) (sc : Screen)
    (p q : Nat) :
    (drawSprite m addr xc yc n sc).1 p q =
      (if yc ≤ q ∧ q < yc + n ∧ xc ≤ p ∧ p < xc + 8
       then sc p q ^^^ ((m (addr + (q - yc)) >>> (7 - (p - xc))) &&& 1)
       else sc p q) := by
  rw [drawSprite, rows_screen m addr xc yc (List.range n) (List.nodup_range n)]
  have hiff : ((∃ h ∈ List.range n, q = yc + h) ∧ xc ≤ p ∧ p < xc + 8) ↔
      (yc ≤ q ∧ q < yc + n ∧ xc ≤ p ∧ p < xc + 8) := by
    constructor
    · rintro ⟨⟨h, hh, rfl⟩, h1, h2⟩
      have := List.mem_range.mp hh
      exact ⟨by omega, by omega, h1, h2⟩
    · rintro ⟨h1, h2, h3, h4⟩
      exact ⟨⟨q - yc, List.mem_range.mpr (by omega), by omega⟩, h3, h4⟩
  simp only [hiff]

/-- The `Draw` collision flag is 1 exactly when some sprite cell whose
screen value before the draw was 1 is turned off by the XOR. -/
theorem drawSprite_coll_eq_one (m : Nat → Nat) (addr xc yc n : Nat) (sc : Screen) :
    (drawSprite m addr xc yc n sc).2 = 1 ↔
      (∃ h < n, ∃ w < 8,
        sc (xc + w) (yc + h) = 1 ∧
        sc (xc + w) (yc + h) ^^^ ((m (addr + h) >>> (7 - w)) &&& 1) = 0) := by
  rw [drawSprite, rows_coll m addr xc yc (List.range n) (List.nodup_range n)]
  split_ifs with hc
  · simp only [true_iff, eq_self_iff_true]
    obtain ⟨h, hh, w, hw, hcc⟩ := hc
    exact ⟨h, List.mem_range.mp hh, w, List.mem_range.mp hw, hcc⟩
  · constructor
    · intro h0
      exact absurd h0 (by norm_num)
    · rintro ⟨h, hh, w, hw, hcc⟩
      exact absurd ⟨h, List.mem_range.mpr hh, w, List.mem_range.mpr hw, hcc⟩ hc

/-- The `Draw` collision flag is 0 exactly when no such cell exists. -/
theorem drawSprite_coll_eq_zero (m : Nat → Nat) (addr xc yc n : Nat) (sc : Screen) :
    (drawSprite m addr xc yc n sc).2 = 0 ↔
      ¬(∃ h < n, ∃ w < 8,
        sc (xc + w) (yc + h) = 1 ∧
        sc (xc + w) (yc + h) ^^^ ((m (addr + h) >>> (7 - w)) &&& 1) = 0) := by
  rw [drawSprite, rows_coll m addr xc yc (List.range n) (List.nodup_range n)]
  split_ifs with hc
  · constructor
    · intro h0
      exact absurd h0 (by norm_num)
    · intro hno
      obtain ⟨h, hh, w, hw, hcc⟩ := hc
      exact absurd ⟨h, List.mem_range.mp hh, w, List.mem_range.mp hw, hcc⟩ hno
  · constructor
    · rintro - ⟨h, hh, w, hw, hcc⟩
      exact hc ⟨h, List.mem_range.mpr hh, w, List.mem_range.mpr hw, hcc⟩
    · intro _
      rfl

end DrawLemmas

section DrawTheorems

/-- C3 (amended): with `x, y, x2, y2` distinct from the flag register and
the sprite slice in range, (a) drawing the same sprite twice at the same
location restores every screen cell to its value before the first draw;
(b) the second identical draw reports collision (`VF = 1`) provided the
sprite has at least one set pixel and every cell targeted by a set sprite
pixel read 0 before the first draw (an all-zero sprite, or set pixels
landing on already-set cells, can leave `VF = 0`, which falsifies the
unconditional claim); (c) a second draw whose set sprite pixels target
cells disjoint from the first draw's set pixels, all blank beforehand,
reports no collision (`VF = 0`). -/
theorem draw_twice_law (env : Env) (s : Chip8) (x y n x2 y2 n2 : Nat)
    (hx : x < 16) (hy : y < 16) (hxF : x ≠ 0xF) (hyF : y ≠ 0xF)
    (hn : s.i + n ≤ 4096)
    (hx2 : x2 < 16) (hy2 : y2 < 16) (hx2F : x2 ≠ 0xF) (hy2F : y2 ≠ 0xF)
    (hn2 : s.i + n2 ≤ 4096) :
    ∃ s₁, execute_single env (.Draw x y n) s = some s₁ ∧
      (∃ s₂, execute_single env (.Draw x y n) s₁ = some s₂ ∧
        (∀ p q, s₂.screen p q = s.screen p q) ∧
        ((∃ h < n, ∃ w < 8, (s.memory (s.i + h) >>> (7 - w)) &&& 1 = 1) →
         (∀ h < n, ∀ w < 8, (s.memory (s.i + h) >>> (7 - w)) &&& 1 = 1 →
            s.screen (s.registers x + w) (s.registers y + h) = 0) →
         s₂.registers 0xF = 1)) ∧
      (∃ t₂, execute_single env (.Draw x2 y2 n2) s₁ = some t₂ ∧
        ((∀ h < n, ∀ w < 8, ∀ h' < n2, ∀ w' < 8,
            (s.memory (s.i + h) >>> (7 - w)) &&& 1 = 1 →
            (s.memory (s.i + h') >>> (7 - w')) &&& 1 = 1 →
            ¬(s.registers x + w = s.registers x2 + w' ∧
              s.registers y + h = s.registers y2 + h')) →
         (∀ h' < n2, ∀ w' < 8, (s.memory (s.i + h') >>> (7 - w')) &&& 1 = 1 →
            s.screen (s.registers x2 + w') (s.registers y2 + h') = 0) →
         t₂.registers 0xF = 0)) := by
  have h1 : execute_single env (.Draw x y n) s =
      some { tick s with
        screen := (drawSprite s.memory s.i (s.registers x) (s.registers y) n s.screen).1,
        registers := (updf s.registers 0xF
          (drawSprite s.memory s.i (s.registers x) (s.registers y) n s.screen).2) } :=
    (exec_Draw env s _ x y n).mpr ⟨hx, hy, hn, rfl⟩
  refine ⟨_, h1, ⟨_, (exec_Draw env _ _ x y n).mpr ⟨hx, hy, hn, rfl⟩, ?_, ?_⟩,
    ⟨_, (exec_Draw env _ _ x2 y2 n2).mpr ⟨hx2, hy2, hn2, rfl⟩, ?_⟩⟩
  · -- restoration
    intro p q
    show (drawSprite _ _ _ _ n _).1 p q = s.screen p q
    dsimp only
    simp only [tick_memory, tick_i, tick_screen, tick_registers]
    rw [updf_other _ _ _ _ hxF, updf_other _ _ _ _ hyF]
    rw [drawSprite_screen, drawSprite_screen]
    split_ifs with hreg
    · rw [Nat.xor_assoc, Nat.xor_self, Nat.xor_zero]
    · rfl
  · -- collision on the identical second draw
    intro hnz hblank
    dsimp only
    simp only [tick_memory, tick_i, tick_screen, tick_registers]
    rw [updf_self, updf_other _ _ _ _ hxF, updf_other _ _ _ _ hyF]
    rw [drawSprite_coll_eq_one]
    obtain ⟨h0, hh0, w0, hw0, hbit⟩ := hnz
    refine ⟨h0, hh0, w0, hw0, ?_, ?_⟩
    · rw [drawSprite_screen, if_pos (by omega)]
      rw [show s.registers y + h0 - s.registers y = h0 from by omega,
        show s.registers x + w0 - s.registers x = w0 from by omega, hbit,
        hblank h0 hh0 w0 hw0 hbit]
      decide
    · rw [drawSprite_screen, if_pos (by omega)]
      rw [show s.registers y + h0 - s.registers y = h0 from by omega,
        show s.registers x + w0 - s.registers x = w0 from by omega, hbit,
        hblank h0 hh0 w0 hw0 hbit]
      decide
  · -- no collision for disjoint set pixels
    intro hdisj hblank2
    dsimp only
    simp only [tick_memory, tick_i, tick_screen, tick_registers]
    rw [updf_self, updf_other _ _ _ _ hx2F, updf_other _ _ _ _ hy2F]
    rw [drawSprite_coll_eq_zero]
    rintro ⟨h', hh', w', hw', hone, hxor⟩
    have hble : (s.memory (s.i + h') >>> (7 - w')) &&& 1 ≤ 1 := by
      rw [Nat.and_one_is_mod]
      omega
    rcases Nat.lt_or_ge ((s.memory (s.i + h') >>> (7 - w')) &&& 1) 1 with hb0 | hb1
    · -- sprite bit is 0: the xor leaves the cell at 1, no collision possible
      have hb : (s.memory (s.i + h') >>> (7 - w')) &&& 1 = 0 := by omega
      rw [hb, Nat.xor_zero] at hxor
      omega
    · -- sprite bit is 1: the targeted cell is 0 after the first draw
      have hb : (s.memory (s.i + h') >>> (7 - w')) &&& 1 = 1 := by omega
      have hsc : s.screen (s.registers x2 + w') (s.registers y2 + h') = 0 :=
        hblank2 h' hh' w' hw' hb
      have hcell :
          (drawSprite s.memory s.i (s.registers x) (s.registers y) n s.screen).1
            (s.registers x2 + w') (s.registers y2 + h') = 0 := by
        rw [drawSprite_screen]
        split_ifs with hreg
        · -- inside the first draw's region: the first sprite's bit there is 0
          have hbit1 : (s.memory (s.i + (s.registers y2 + h' - s.registers y)) >>>
              (7 - (s.registers x2 + w' - s.registers x))) &&& 1 = 0 := by
            have hb1le : (s.memory (s.i + (s.registers y2 + h' - s.registers y)) >>>
                (7 - (s.registers x2 + w' - s.registers x))) &&& 1 ≤ 1 := by
              rw [Nat.and_one_is_mod]
              omega
            by_contra hne
            have hbit1' : (s.memory (s.i + (s.registers y2 + h' - s.registers y)) >>>
                (7 - (s.registers x2 + w' - s.registers x))) &&& 1 = 1 := by omega
            exact hdisj (s.registers y2 + h' - s.registers y) (by omega)
              (s.registers x2 + w' - s.registers x) (by omega)
              h' hh' w' hw' hbit1' hb ⟨by omega, by omega⟩
          rw [hbit1, Nat.xor_zero, hsc]
        · exact hsc
      rw [hcell] at hone
      omega

/-- Counterexample for C3 as stated: drawing the all-zero sprite at
`memory[0x200]` twice leaves `VF = 0` after the second draw — the claim's
unconditional "second draw sets VF to 1" is false. -/
theorem draw_twice_law_cex :
    ((execute_single env0 (.Draw 0 1 1) { initState with i := 0x200 }).bind
        (fun s₁ => execute_single env0 (.Draw 0 1 1) s₁)).map
      (fun s => s.registers 0xF) = some 0 ∧ (0 : Nat) ≠ 1 :=
  ⟨rfl, by omega⟩

/-- Witness for C3 (amended): the font glyph at address 0 drawn twice at
`(0, 0)` on a blank screen reports a collision on the second draw. -/
theorem draw_twice_law_witness :
    ∃ s₁ s₂, execute_single env0 (.Draw 0 1 1)
        { initState with registers := updf initState.registers 3 9 } = some s₁ ∧
      execute_single env0 (.Draw 0 1 1) s₁ = some s₂ ∧
      s₂.registers 0xF = 1 := by
  obtain ⟨s₁, h1, ⟨s₂, h2, -, hcoll⟩, -⟩ :=
    draw_twice_law env0 { initState with registers := updf initState.registers 3 9 }
      0 1 1 2 3 1 (by decide) (by decide) (by decide) (by decide) (by decide)
      (by decide) (by decide) (by decide) (by decide) (by decide)
  exact ⟨s₁, s₂, h1, h2, hcoll (by decide) (by decide)⟩

end DrawTheorems

section CallReturnLemmas

theorem execute_many_cons (env : Env) (i : Instruction) (l : List Instruction)
    (s : Chip8) :
    execute_many env (i :: l) s = (execute_single env i s).bind (execute_many env l) := by
  cases h : execute_single env i s <;> simp [execute_many, h]

theorem execute_many_append (env : Env) (l₁ l₂ : List Instruction) :
    ∀ s, execute_many env (l₁ ++ l₂) s =
      (execute_many env l₁ s).bind (execute_many env l₂) := by
  induction l₁ with
  | nil => intro s; simp [execute_many]
  | cons i t ih =>
    intro s
    rw [List.cons_append, execute_many_cons, execute_many_cons]
    cases h : execute_single env i s <;> simp [ih]

/-- A plain (pc-neutral) instruction advances the program counter by
exactly 2 and leaves the stack and stack pointer untouched. -/
theorem plain_step (env : Env) (i : Instruction) (s s' : Chip8)
    (hp : isPlainStep i = true) (h : execute_single env i s = some s') :
    s'.program_counter = (s.program_counter + 2) % 65536 ∧
    s'.stack_pointer = s.stack_pointer ∧ s'.stack = s.stack := by
  cases i
  case ClearScreen =>
    rw [exec_ClearScreen] at h
    subst h
    exact ⟨rfl, rfl, rfl⟩
  case SetRegToConst x n =>
    rw [exec_SetRegToConst] at h
    obtain ⟨_, rfl⟩ := h
    exact ⟨rfl, rfl, rfl⟩
  case IncRegByConst x n =>
    rw [exec_IncRegByConst] at h
    obtain ⟨_, rfl⟩ := h
    exact ⟨rfl, rfl, rfl⟩
  case SetRegToReg x y =>
    rw [exec_SetRegToReg] at h
    obtain ⟨_, _, rfl⟩ := h
    exact ⟨rfl, rfl, rfl⟩
  case BitwiseOr x y =>
    rw [exec_BitwiseOr] at h
    obtain ⟨_, _, rfl⟩ := h
    exact ⟨rfl, rfl, rfl⟩
  case BitwiseAnd x y =>
    rw [exec_BitwiseAnd] at h
    obtain ⟨_, _, rfl⟩ := h
    exact ⟨rfl, rfl, rfl⟩
  case BitwiseXor x y =>
    rw [exec_BitwiseXor] at h
    obtain ⟨_, _, rfl⟩ := h
    exact ⟨rfl, rfl, rfl⟩
  case IncRegByReg x y =>
    rw [exec_IncRegByReg] at h
    obtain ⟨_, _, rfl⟩ := h
    exact ⟨rfl, rfl, rfl⟩
  case DecRegByReg x y =>
    rw [exec_DecRegByReg] at h
    obtain ⟨_, _, rfl⟩ := h
    exact ⟨rfl, rfl, rfl⟩
  case BitshiftRight x =>
    rw [exec_BitshiftRight] at h
    obtain ⟨_, rfl⟩ := h
    exact ⟨rfl, rfl, rfl⟩
  case SetVxVyMinusVx x y =>
    rw [exec_SetVxVyMinusVx] at h
    obtain ⟨_, _, rfl⟩ := h
    exact ⟨rfl, rfl, rfl⟩
  case BitshiftLeft x =>
    rw [exec_BitshiftLeft] at h
    obtain ⟨_, rfl⟩ := h
    exact ⟨rfl, rfl, rfl⟩
  case SetI addr =>
    rw [exec_SetI] at h
    subst h
    exact ⟨rfl, rfl, rfl⟩
  case SetVxRand x n =>
    rw [exec_SetVxRand] at h
    obtain ⟨_, rfl⟩ := h
    exact ⟨rfl, rfl, rfl⟩
  case Draw x y n =>
    rw [exec_Draw] at h
    obtain ⟨_, _, _, rfl⟩ := h
    exact ⟨rfl, rfl, rfl⟩
  case SetRegToDelayTimer x =>
    rw [exec_SetRegToDelayTimer] at h
    obtain ⟨_, rfl⟩ := h
    exact ⟨rfl, rfl, rfl⟩
  case SetRegToGetKey x =>
    rw [exec_SetRegToGetKey] at h
    obtain ⟨_, rfl⟩ := h
    exact ⟨rfl, rfl, rfl⟩
  case SetDelayTimerToReg x =>
    rw [exec_SetDelayTimerToReg] at h
    obtain ⟨_, rfl⟩ := h
    exact ⟨rfl, rfl, rfl⟩
  case SetSoundTimerToReg x =>
    rw [exec_SetSoundTimerToReg] at h
    obtain ⟨_, rfl⟩ := h
    exact ⟨rfl, rfl, rfl⟩
  case AddRegToI x =>
    rw [exec_AddRegToI] at h
    obtain ⟨_, rfl⟩ := h
    exact ⟨rfl, rfl, rfl⟩
  case SetIToSpriteAddrVx x =>
    rw [exec_SetIToSpriteAddrVx] at h
    obtain ⟨_, rfl⟩ := h
    exact ⟨rfl, rfl, rfl⟩
  case SetIToBcdOfReg x =>
    rw [exec_SetIToBcdOfReg] at h
    obtain ⟨_, _, rfl⟩ := h
    exact ⟨rfl, rfl, rfl⟩
  case RegDump x =>
    rw [exec_RegDump] at h
    obtain ⟨_, _, rfl⟩ := h
    exact ⟨rfl, rfl, rfl⟩
  case RegLoad x =>
    rw [exec_RegLoad] at h
    obtain ⟨_, _, rfl⟩ := h
    exact ⟨rfl, rfl, rfl⟩
  case Goto addr =>
    simp [isPlainStep] at hp
  case Call addr =>
    simp [isPlainStep] at hp
  case Return =>
    simp [isPlainStep] at hp
  case SetPcToV0PlusAddr addr =>
    simp [isPlainStep] at hp
  case IfRegEqConst x n =>
    simp [isPlainStep] at hp
  case IfRegNeqConst x n =>
    simp [isPlainStep] at hp
  case IfRegEqReg x y =>
    simp [isPlainStep] at hp
  case IfRegNeqReg x y =>
    simp [isPlainStep] at hp
  case IfKeyEqVx x =>
    simp [isPlainStep] at hp
  case IfKeyNeqVx x =>
    simp [isPlainStep] at hp

theorem call_step_facts (env : Env) (s : Chip8) (addr : Nat) (s₁ : Chip8)
    (h : execute_single env (.Call addr) s = some s₁)
    (hbound : s.stack_pointer + 1 ≤ 255) :
    s₁.stack_pointer = s.stack_pointer + 1 ∧
    s₁.stack s.stack_pointer = (s.program_counter + 2) % 65536 ∧
    (∀ j, j ≠ s.stack_pointer → s₁.stack j = s.stack j) := by
  rw [exec_Call] at h
  subst h
  refine ⟨?_, ?_, ?_⟩
  · dsimp only
    omega
  · exact updf_self _ _ _
  · intro j hj
    exact updf_other _ _ _ _ hj

theorem return_step_facts (env : Env) (s₁ s₂ : Chip8)
    (h : execute_single env .Return s₁ = some s₂) :
    s₂.stack_pointer = (s₁.stack_pointer + 255) % 256 ∧
    s₂.program_counter = s₁.stack ((s₁.stack_pointer + 255) % 256) ∧
    s₂.stack = s₁.stack := by
  rw [exec_Return] at h
  subst h
  exact ⟨rfl, rfl, rfl⟩

/-- Execution of a balanced sequence: the program counter advances by 2
per top-level unit (mod 2^16), the stack pointer is restored, and stack
entries below the initial stack pointer are preserved. -/
theorem balseq_exec (env : Env) :
    ∀ {k u : Nat} {l : List Instruction}, BalSeq k u l →
      ∀ s s' : Chip8, s.stack_pointer + k ≤ 255 →
        execute_many env l s = some s' →
        s'.program_counter % 65536 = (s.program_counter + 2 * u) % 65536 ∧
        s'.stack_pointer = s.stack_pointer ∧
        (∀ j, j < s.stack_pointer → s'.stack j = s.stack j) := by
  intro k u l hb
  induction hb with
  | nil k =>
    intro s s' _ hex
    simp [execute_many] at hex
    subst hex
    exact ⟨by omega, rfl, fun j _ => rfl⟩
  | @plain i k u l hpl hbtail ih =>
    intro s s' hsp hex
    rw [execute_many_cons] at hex
    rcases hh : execute_single env i s with - | s₁
    · rw [hh] at hex
      simp at hex
    · rw [hh] at hex
      simp only [Option.some_bind'] at hex
      obtain ⟨hp2, hsp2, hstk2⟩ := plain_step env i s s₁ hpl hh
      obtain ⟨hpc, hsp', hstk⟩ := ih s₁ s' (by omega) hex
      refine ⟨?_, by rw [hsp', hsp2], fun j hj => ?_⟩
      · rw [hp2] at hpc
        omega
      · rw [hstk j (by omega), hstk2]
  | @wrap addr inner rest k u v hinner hrest ih_inner ih_rest =>
    intro s s' hsp hex
    rw [execute_many_append, execute_many_cons] at hex
    rcases hc : execute_single env (.Call addr) s with - | sc
    · rw [hc] at hex
      simp at hex
    · rw [hc] at hex
      simp only [Option.some_bind'] at hex
      rcases hm : execute_many env inner sc with - | s₂
      · rw [hm] at hex
        simp at hex
      · rw [hm] at hex
        simp only [Option.some_bind'] at hex
        rw [execute_many_cons] at hex
        rcases hr : execute_single env .Return s₂ with - | sr
        · rw [hr] at hex
          simp at hex
        · rw [hr] at hex
          simp only [Option.some_bind'] at hex
          obtain ⟨hc1, hc2, hc3⟩ := call_step_facts env s addr sc hc (by omega)
          obtain ⟨hi1, hi2, hi3⟩ := ih_inner sc s₂ (by omega) hm
          obtain ⟨hr1, hr2, hr3⟩ := return_step_facts env s₂ sr hr
          have hsp2 : s₂.stack_pointer = s.stack_pointer + 1 := by rw [hi2, hc1]
          have hpop : (s₂.stack_pointer + 255) % 256 = s.stack_pointer := by omega
          have hsrsp : sr.stack_pointer = s.stack_pointer := by rw [hr1, hpop]
          have hsrpc : sr.program_counter = (s.program_counter + 2) % 65536 := by
            rw [hr2, hpop, hi3 s.stack_pointer (by omega), hc2]
          have hsrstk : ∀ j, j < s.stack_pointer → sr.stack j = s.stack j := by
            intro j hj
            rw [hr3, hi3 j (by omega), hc3 j (by omega)]
          obtain ⟨hp', hsp', hstk'⟩ := ih_rest sr s' (by omega) hex
          refine ⟨?_, by rw [hsp', hsrsp], fun j hj => ?_⟩
          · rw [hsrpc] at hp'
            omega
          · rw [hstk' j (by omega), hsrstk j hj]

end CallReturnLemmas

section CallReturnTheorems

/-- C8 (amended): for a balanced `Call`/`Return` sequence whose nesting
depth stays within the 256-entry stack (`sp + depth ≤ 255`), whose
top-level interleaved instructions are pc-neutral (no jump, no skip), the
program counter after the sequence equals the program counter before it
plus 2 for each top-level unit — each intervening instruction *and each
top-level Call/Return pair* counting as one unit (mod 2^16) — and the
stack pointer is restored.  (The claim as stated, `+2 ×` intervening
instructions only, fails: a bare Call/Return pair advances PC by 2.) -/
theorem call_return_law (env : Env) {k u : Nat} {l : List Instruction}
    (hb : BalSeq k u l) (s s' : Chip8) (hsp : s.stack_pointer + k ≤ 255)
    (hex : execute_many env l s = some s') :
    s'.program_counter % 65536 = (s.program_counter + 2 * u) % 65536 ∧
    s'.stack_pointer = s.stack_pointer :=
  ⟨(balseq_exec env hb s s' hsp hex).1, (balseq_exec env hb s s' hsp hex).2.1⟩

/-- Counterexample for C8 as stated: `[Call 0x300, Return]` contains zero
non-call/return instructions, so the claim predicts `PC = 0x200` after the
sequence, but execution leaves `PC = 0x202`. -/
theorem call_return_law_cex :
    (execute_many env0 [.Call 0x300, .Return] initState).map
      (fun s => s.program_counter) = some 0x202 ∧
    (0x202 : Nat) ≠ 0x200 + 2 * 0 :=
  ⟨rfl, by norm_num⟩

/-- Witness for C8 (amended): `[SetI 5, Call 0x300, SetRegToConst V1 2,
Return]` is a balanced sequence with two top-level units; from the fresh
machine PC goes from 0x200 to 0x204 and the stack pointer returns to 0. -/
theorem call_return_law_witness :
    ∃ s', execute_many env0
        [.SetI 5, .Call 0x300, .SetRegToConst 1 2, .Return] initState = some s' ∧
      s'.program_counter % 65536 = (0x200 + 2 * 2) % 65536 ∧
      s'.stack_pointer = 0 := by
  have hinner : BalSeq 0 1 [.SetRegToConst 1 2] :=
    @BalSeq.plain (.SetRegToConst 1 2) 0 0 [] rfl (BalSeq.nil 0)
  have hw : BalSeq 1 1 [.Call 0x300, .SetRegToConst 1 2, .Return] :=
    @BalSeq.wrap 0x300 [.SetRegToConst 1 2] [] 0 0 1 hinner (BalSeq.nil 1)
  have hb : BalSeq 1 2 [.SetI 5, .Call 0x300, .SetRegToConst 1 2, .Return] :=
    @BalSeq.plain (.SetI 5) 1 1 [.Call 0x300, .SetRegToConst 1 2, .Return] rfl hw
  obtain ⟨s', hs⟩ : ∃ s', execute_many env0
      [.SetI 5, .Call 0x300, .SetRegToConst 1 2, .Return] initState = some s' := ⟨_, rfl⟩
  have h := call_return_law env0 hb initState s' (by decide) hs
  exact ⟨s', hs, h.1, h.2⟩

end CallReturnTheorems

section DecodeWitness

/-- Witness for C5: `0xF133` (StoreBCD with X = 1) is a canonical pattern
and decodes successfully. -/
theorem decode_isSome_iff_canonical_witness :
    (from_two_u8 0xF1 0x33).isSome = true :=
  (decode_isSome_iff_canonical 0xF1 0x33).mpr (by unfold canonical_opcode; decide)

end DecodeWitness

end Chip8Emu
